import Mathlib

/-!
Verification of the choptube preload / readiness / transport subsystem.

This file shallowly embeds the TypeScript source of the subsystem:

* src/lib/youtube/api.ts        (player capability guard, safe wrappers)
* src/store/project.ts          (rate sanitization and the track store)
* src/app/page.tsx              (pad trigger handlers, deck mutual exclusion)
* src/lib/clock/clock.ts        (TransportManager: startTransport, schedulePlay)
* src/lib/youtube/preload.ts    (PreloadManager.armAll / preloadPlayer /
                                 waitForBuffering / verifyPlayerReady,
                                 autoPreloadPlayer)
* src/lib/PolicyGuard.ts        (autoplay policy guard with one-shot retry
                                 listeners)
* src/lib/config.ts             (PRELOAD_CONFIG, YOUTUBE_CONFIG constants)

JavaScript numbers are modelled as rationals (with explicit NaN/Infinity
constructors where the code can receive them), the single-threaded timer
queue is modelled as an explicit list of pending timers executed in
deadline order, and every remote-player call is recorded as an effect on an
explicit player state so that theorems can speak about the player a
function leaves behind.
-/

namespace ChopTube

/-! ## JavaScript values

The capability guard (src/lib/youtube/api.ts) receives completely untyped
input, so we model the relevant fragment of JavaScript values.  An object
is represented by the list of its function-valued property names; that is
the only thing typeof-checks on properties can observe. -/

/-- Model of a JavaScript number: NaN, the two infinities, or a finite
value (represented as a rational). -/
inductive JSNum where
  | nan : JSNum
  | posInf : JSNum
  | negInf : JSNum
  | fin : ℚ → JSNum
  deriving DecidableEq, Repr

/-- Model of a JavaScript value as seen by the capability guard.  Objects
carry the names of their function-valued properties. -/
inductive JSVal where
  | vNull : JSVal
  | vUndefined : JSVal
  | vBool : Bool → JSVal
  | vNum : JSNum → JSVal
  | vStr : String → JSVal
  | vObj : List String → JSVal
  deriving DecidableEq, Repr

namespace JSVal

/-- JavaScript truthiness test: null, undefined, false, 0, NaN and the
empty string are falsy. -/
def isFalsy : JSVal → Bool
  | vNull => true
  | vUndefined => true
  | vBool b => !b
  | vNum JSNum.nan => true
  | vNum (JSNum.fin q) => q == 0
  | vNum _ => false
  | vStr s => s == ""
  | vObj _ => false

/-- Whether the value is an object. -/
def isObj : JSVal → Bool
  | vObj _ => true
  | _ => false

/-- Whether a property of the value is a function.  Property access on
null or undefined throws a TypeError; on other primitives it boxes and
yields undefined for the method names the guard asks about. -/
def propIsFunction : JSVal → String → Except String Bool
  | vNull, _ => .error "TypeError: cannot read properties of null"
  | vUndefined, _ => .error "TypeError: cannot read properties of undefined"
  | vObj fs, m => .ok (fs.contains m)
  | _, _ => .ok false

end JSVal

open JSVal

/-! ## Player capability guard (src/lib/youtube/api.ts, isPlayerReady) -/

/-- Methods required by isPlayerReady in src/lib/youtube/api.ts. -/
def requiredMethods : List String :=
  ["setPlaybackRate", "getCurrentTime", "getDuration"]

/-- Short-circuiting model of Array.prototype.every over the required
method names, propagating a thrown TypeError. -/
def everyIsFunction (v : JSVal) : List String → Except String Bool
  | [] => .ok true
  | m :: ms => do
    let b ← v.propIsFunction m
    if b then everyIsFunction v ms else .ok false

/-- Model of isPlayerReady from src/lib/youtube/api.ts, instrumented with
the exceptions JavaScript could raise: a falsy player short-circuits to
false before any property is read. -/
def isPlayerReady (v : JSVal) : Except String Bool :=
  if v.isFalsy then .ok false else everyIsFunction v requiredMethods

/-- The boolean the callers of isPlayerReady observe (it never actually
throws; see the capability-guard theorem). -/
def isPlayerReadyB (v : JSVal) : Bool :=
  match isPlayerReady v with
  | .ok b => b
  | .error _ => false

/-! ## Rate sanitization (src/lib/config.ts and src/store/project.ts) -/

/-- ALLOWED_RATES from YOUTUBE_CONFIG in src/lib/config.ts. -/
def ALLOWED_RATES : List ℚ := [1/4, 1/2, 3/4, 1, 5/4, 3/2, 7/4, 2]

/-- DEFAULT_RATE from YOUTUBE_CONFIG in src/lib/config.ts. -/
def DEFAULT_RATE : ℚ := 1

/-- Model of sanitizeTrackRate from src/store/project.ts: a non-number or
non-finite input falls back to the default; a finite number outside the
allowed list falls back to the default. -/
def sanitizeTrackRate : JSVal → ℚ
  | vNum (JSNum.fin q) => if ALLOWED_RATES.contains q then q else DEFAULT_RATE
  | _ => DEFAULT_RATE

/-- Model of a track from src/store/project.ts.  The optional ready flag
is modelled as a Bool because the store only ever tests it for
truthiness. -/
structure Track where
  id : String
  playerRef : Option JSVal := none
  rate : ℚ := 1
  ready : Bool := false
  deriving DecidableEq, Repr

/-- Model of the setTrackRate action from src/store/project.ts: it stores
the sanitized rate on every track with the given id. -/
def setTrackRate (trackId : String) (rate : JSVal) (tracks : List Track) :
    List Track :=
  let safeRate := sanitizeTrackRate rate
  tracks.map (fun t => if t.id == trackId then { t with rate := safeRate } else t)

/-! ## Pads and the deck mutual-exclusion trigger (src/app/page.tsx)

The page keeps, per deck, a list of pads (each with a timestamp and an
isPlaying marker), a currently-playing ref, and the ready flag of the
corresponding player (player1 && isPlayerReady1).  The pad trigger
handlers only read those, so the model state carries exactly them.  The
remote-player commands the handlers issue are recorded as effects. -/

/-- One pad of the 16-pad grid: an id, a captured timestamp and the
isPlaying marker. -/
structure Pad where
  id : ℕ
  timestamp : ℚ
  isPlaying : Bool
  deriving DecidableEq, Repr

/-- The pad state of one deck together with its currentlyPlayingRef. -/
structure DeckState where
  pads : List Pad
  currentlyPlaying : Option ℕ := none
  deriving DecidableEq, Repr

/-- The slice of page state the pad handlers read and write.  ready1 and
ready2 stand for (player1 && isPlayerReady1) and (player2 &&
isPlayerReady2). -/
structure PageState where
  deck1 : DeckState
  deck2 : DeckState
  ready1 : Bool
  ready2 : Bool
  deriving DecidableEq, Repr

/-- Which of the two decks an effect addresses. -/
inductive DeckId where
  | d1 : DeckId
  | d2 : DeckId
  deriving DecidableEq, Repr

/-- Remote-player commands issued by the pad handlers. -/
inductive PadEffect where
  | pauseEff : DeckId → PadEffect
  | seekEff : DeckId → ℚ → PadEffect
  | playEff : DeckId → PadEffect
  deriving DecidableEq, Repr

/-- Resetting every pad of a deck to not playing and clearing the
currently-playing ref (the setPads(... isPlaying: false) pattern). -/
def clearDeck (d : DeckState) : DeckState :=
  { pads := d.pads.map (fun p => { p with isPlaying := false }),
    currentlyPlaying := none }

/-- The target-deck update of a pad trigger: if some pad matches the
timestamp, exactly the matching pad id is marked playing and the ref is
updated; otherwise the pads are left untouched. -/
def triggerDeck (ts : ℚ) (d : DeckState) : DeckState :=
  match (d.pads.find? (fun p => p.timestamp == ts)).map Pad.id with
  | some pid =>
    { pads := d.pads.map (fun p => { p with isPlaying := p.id == pid }),
      currentlyPlaying := some pid }
  | none => d

/-- Model of handlePadTrigger1 from src/app/page.tsx: when player 1 is
ready, pause and clear deck 2 (only if player 2 is ready), update deck 1's
markers, then seek and play deck 1. -/
def handlePadTrigger1 (ts : ℚ) (s : PageState) : PageState × List PadEffect :=
  if s.ready1 then
    let other : DeckState × List PadEffect :=
      if s.ready2 then (clearDeck s.deck2, [PadEffect.pauseEff DeckId.d2])
      else (s.deck2, [])
    ({ s with deck1 := triggerDeck ts s.deck1, deck2 := other.1 },
      other.2 ++ [PadEffect.seekEff DeckId.d1 ts, PadEffect.playEff DeckId.d1])
  else (s, [])

/-- Model of handlePadTrigger2 from src/app/page.tsx (mirror image). -/
def handlePadTrigger2 (ts : ℚ) (s : PageState) : PageState × List PadEffect :=
  if s.ready2 then
    let other : DeckState × List PadEffect :=
      if s.ready1 then (clearDeck s.deck1, [PadEffect.pauseEff DeckId.d1])
      else (s.deck1, [])
    ({ s with deck2 := triggerDeck ts s.deck2, deck1 := other.1 },
      other.2 ++ [PadEffect.seekEff DeckId.d2 ts, PadEffect.playEff DeckId.d2])
  else (s, [])

/-- Model of handlePadStop1 from src/app/page.tsx. -/
def handlePadStop1 (s : PageState) : PageState × List PadEffect :=
  if s.ready1 then
    ({ s with deck1 := clearDeck s.deck1 }, [PadEffect.pauseEff DeckId.d1])
  else (s, [])

/-- Model of handlePadStop2 from src/app/page.tsx. -/
def handlePadStop2 (s : PageState) : PageState × List PadEffect :=
  if s.ready2 then
    ({ s with deck2 := clearDeck s.deck2 }, [PadEffect.pauseEff DeckId.d2])
  else (s, [])

/-- The pad-related user events of the page. -/
inductive PadEvent where
  | trigger1 : ℚ → PadEvent
  | trigger2 : ℚ → PadEvent
  | stop1 : PadEvent
  | stop2 : PadEvent
  deriving DecidableEq, Repr

/-- One step of the pad state machine. -/
def padStep : PadEvent → PageState → PageState × List PadEffect
  | PadEvent.trigger1 ts, s => handlePadTrigger1 ts s
  | PadEvent.trigger2 ts, s => handlePadTrigger2 ts s
  | PadEvent.stop1, s => handlePadStop1 s
  | PadEvent.stop2, s => handlePadStop2 s

/-- Running a sequence of pad events. -/
def runPadEvents (evs : List PadEvent) (s : PageState) : PageState :=
  evs.foldl (fun s e => (padStep e s).1) s

/-- A deck reports a playing pad when any of its pads has the marker
set. -/
def deckHasPlaying (d : DeckState) : Bool :=
  d.pads.any (fun p => p.isPlaying)

/-- At most one of the two decks reports a playing pad. -/
def atMostOnePlaying (s : PageState) : Prop :=
  deckHasPlaying s.deck1 = false ∨ deckHasPlaying s.deck2 = false

/-! ## Transport manager (src/lib/clock/clock.ts)

The TransportManager defers seek and play operations through setTimeout
and keeps a Map from track id to the play timeout.  We model the timer
queue explicitly: a timer carries the numeric id setTimeout returned, its
absolute deadline and the deferred action; the event loop repeatedly runs
the pending timer with the earliest deadline (ties broken by creation
order).  Effects on the remote players are recorded in a trace, each entry
tagged with the timer that produced it (none for effects issued
synchronously). -/

/-- Whether a value carries the given function-valued property; this is
the guard the safe wrappers in src/lib/youtube/api.ts apply before each
call (a falsy or primitive player never has one). -/
def hasFun (v : JSVal) (m : String) : Bool :=
  match v with
  | vObj fs => fs.contains m
  | _ => false

/-- Remote-player commands issued by the transport manager. -/
inductive TEffect where
  | seekE : String → ℚ → TEffect
  | playE : String → TEffect
  | pauseE : String → TEffect
  | rateE : String → ℚ → TEffect
  deriving DecidableEq, Repr

/-- The track id an effect addresses. -/
def effTrack : TEffect → String
  | TEffect.seekE id _ => id
  | TEffect.playE id => id
  | TEffect.pauseE id => id
  | TEffect.rateE id _ => id

/-- Model of seekSafe from src/lib/youtube/api.ts: a player without a
seekTo method is a warned no-op. -/
def seekSafeEffects (trackId : String) (p : JSVal) (t : ℚ) : List TEffect :=
  if hasFun p "seekTo" then [TEffect.seekE trackId t] else []

/-- Model of playVideo from src/lib/youtube/api.ts. -/
def playVideoEffects (trackId : String) (p : JSVal) : List TEffect :=
  if hasFun p "playVideo" then [TEffect.playE trackId] else []

/-- Model of pauseVideo from src/lib/youtube/api.ts. -/
def pauseVideoEffects (trackId : String) (p : JSVal) : List TEffect :=
  if hasFun p "pauseVideo" then [TEffect.pauseE trackId] else []

/-- Model of applyPlaybackRate from src/lib/youtube/api.ts: the rate is
clamped into YouTube's 0.25..2.0 range before being applied; a player
without setPlaybackRate is a warned no-op. -/
def applyPlaybackRateEffects (trackId : String) (p : JSVal) (rate : ℚ) :
    List TEffect :=
  if hasFun p "setPlaybackRate" then
    [TEffect.rateE trackId (max (1/4) (min 2 rate))]
  else []

/-- A deferred action of the transport manager: the lookahead seek or the
scheduled play, with the player captured in the closure. -/
inductive TAction where
  | seekA : String → JSVal → ℚ → TAction
  | playA : String → JSVal → TAction
  deriving DecidableEq, Repr

/-- Whether the action is the scheduled play of the given track. -/
def isPlayFor (a : TAction) (trackId : String) : Bool :=
  match a with
  | TAction.playA id _ => id == trackId
  | _ => false

/-- A pending setTimeout: numeric timer id, absolute deadline in ms, and
the deferred action. -/
structure Timer where
  tid : ℕ
  due : ℚ
  act : TAction
  deriving DecidableEq, Repr

/-- One entry of the effect trace: the effect and the timer that fired it
(none when the effect was issued synchronously). -/
structure TraceEntry where
  src : Option ℕ
  eff : TEffect
  deriving DecidableEq, Repr

/-- The state of the transport manager plus the event loop it relies on:
the scheduledPlays map of clock.ts, the pending timers, a counter for
fresh timer ids, the current wall-clock time and the effect trace. -/
structure TMState where
  scheduledPlays : List (String × ℕ)
  timers : List Timer
  nextTid : ℕ
  now : ℚ
  trace : List TraceEntry
  deriving DecidableEq, Repr

/-- Lookup in an insertion-ordered map (JavaScript Map.get, also plain
object property read). -/
def mapGet {α : Type} : List (String × α) → String → Option α
  | [], _ => none
  | (k', v') :: rest, k => if k' == k then some v' else mapGet rest k

/-- Update in an insertion-ordered map (JavaScript Map.set, also plain
object property write): an existing key keeps its position, a new key is
appended. -/
def mapSet {α : Type} : List (String × α) → String → α → List (String × α)
  | [], k, v => [(k, v)]
  | (k', v') :: rest, k, v =>
    if k' == k then (k, v) :: rest else (k', v') :: mapSet rest k v

/-- Deletion from an insertion-ordered map (JavaScript Map.delete). -/
def mapDelete {α : Type} (l : List (String × α)) (k : String) :
    List (String × α) :=
  l.filter (fun p => !(p.1 == k))

/-- Stage 1 of TransportManager.schedulePlay from src/lib/clock/clock.ts:
clearTimeout on the existing play timeout of the track when the map holds
one (the map entry itself is not removed here, exactly as in the
source). -/
def clearScheduled (trackId : String) (st : TMState) : TMState :=
  match mapGet st.scheduledPlays trackId with
  | some tid0 =>
    { st with timers := st.timers.filter (fun tm => !(tm.tid == tid0)) }
  | none => st

/-- Stage 2 of schedulePlay: when the seek deadline (targetTime -
lookaheadMs, relative to now, clamped at zero) is still in the future,
defer the lookahead seek with a plain setTimeout; this timer is NOT
recorded in the scheduledPlays map.  When the deadline has passed no seek
is issued at all. -/
def addSeekTimer (trackId : String) (playerRef : JSVal)
    (targetTime lookaheadMs : ℚ) (st1 : TMState) : TMState :=
  let seekDelay := max 0 (targetTime * 1000 - lookaheadMs - st1.now)
  if 0 < seekDelay then
    { st1 with
      timers := st1.timers ++
        [Timer.mk st1.nextTid (st1.now + seekDelay)
          (TAction.seekA trackId playerRef
            (max 0 (targetTime - lookaheadMs / 1000)))],
      nextTid := st1.nextTid + 1 }
  else st1

/-- Stage 3 of schedulePlay: when the play deadline is still in the
future, defer the play and record its timer in the scheduledPlays map;
otherwise play immediately (synchronously, with no timer). -/
def addPlayTimer (trackId : String) (playerRef : JSVal)
    (targetTime : ℚ) (st2 : TMState) : TMState :=
  let playDelay := max 0 (targetTime * 1000 - st2.now)
  if 0 < playDelay then
    { st2 with
      timers := st2.timers ++
        [Timer.mk st2.nextTid (st2.now + playDelay)
          (TAction.playA trackId playerRef)],
      scheduledPlays := mapSet st2.scheduledPlays trackId st2.nextTid,
      nextTid := st2.nextTid + 1 }
  else
    { st2 with trace := st2.trace ++
        (playVideoEffects trackId playerRef).map (TraceEntry.mk none) }

/-- Model of TransportManager.schedulePlay from src/lib/clock/clock.ts.
A player failing the capability guard is a no-op; otherwise the existing
play timeout of the track is cleared, the lookahead seek is deferred to
targetTime - lookaheadMs and the play to targetTime; only the play
timeout is recorded in the scheduledPlays map. -/
def schedulePlay (trackId : String) (playerRef : JSVal)
    (targetTime lookaheadMs : ℚ) (st : TMState) : TMState :=
  if isPlayerReadyB playerRef = false then st
  else
    addPlayTimer trackId playerRef targetTime
      (addSeekTimer trackId playerRef targetTime lookaheadMs
        (clearScheduled trackId st))

/-- The remote-player commands a deferred action performs when its timer
fires. -/
def actionEffects : TAction → List TEffect
  | TAction.seekA id p q => seekSafeEffects id p q
  | TAction.playA id p => playVideoEffects id p

/-- Firing one timer: its effects are appended to the trace tagged with
its id, it is removed from the queue, and a play callback additionally
deletes its track from the scheduledPlays map. -/
def fireTimer (tm : Timer) (st : TMState) : TMState :=
  let st1 := { st with
    timers := st.timers.erase tm,
    trace := st.trace ++ (actionEffects tm.act).map (TraceEntry.mk (some tm.tid)),
    now := max st.now tm.due }
  match tm.act with
  | TAction.playA id _ => { st1 with scheduledPlays := mapDelete st1.scheduledPlays id }
  | _ => st1

/-- Deadline order on timers, ties broken by timer id (registration
order). -/
def timerLe (a b : Timer) : Bool :=
  decide (a.due < b.due) || (a.due == b.due && decide (a.tid ≤ b.tid))

/-- The earliest pending timer. -/
def minTimer (t : Timer) : List Timer → Timer
  | [] => t
  | u :: us => minTimer (if timerLe t u then t else u) us

/-- One step of the idle event loop: fire the earliest pending timer. -/
def runStep (st : TMState) : Option TMState :=
  match st.timers with
  | [] => none
  | t :: ts => some (fireTimer (minTimer t ts) st)

/-- Event loop with explicit fuel (each step consumes one pending
timer). -/
def runTimersFuel : ℕ → TMState → TMState
  | 0, st => st
  | n + 1, st =>
    match runStep st with
    | none => st
    | some st' => runTimersFuel n st'

/-- Running the event loop until every pending timer has fired. -/
def runAllTimers (st : TMState) : TMState :=
  runTimersFuel st.timers.length st

/-- A fresh transport manager on an idle event loop at the given time. -/
def initTM (now : ℚ) : TMState :=
  { scheduledPlays := [], timers := [], nextTid := 0, now := now, trace := [] }

/-- A fully capable player handle, used by concrete scenarios. -/
def goodPlayer : JSVal :=
  vObj ["setPlaybackRate", "getCurrentTime", "getDuration", "seekTo",
    "playVideo", "pauseVideo"]

/-- Model of TransportManager.startTransport from src/lib/clock/clock.ts:
it returns the caller-visible warnings (the onWarning channel) and the
effect list.  Only tracks that are ready and have a player are processed;
each is rate-applied, seeked to max(0, 0 - lookahead seconds) and paused;
tracks that are not ready only contribute to the warning. -/
def startTransport (tracks : List Track) (lookaheadMs : ℚ) :
    List String × List TEffect :=
  let readyTracks := tracks.filter (fun t => t.ready && t.playerRef.isSome)
  let notReadyTracks := tracks.filter (fun t => !t.ready)
  let warnings :=
    if 0 < notReadyTracks.length then
      ["Starting transport with " ++ toString notReadyTracks.length ++
        " tracks not ready. Consider preloading first."]
    else []
  (warnings,
    readyTracks.flatMap (fun t =>
      match t.playerRef with
      | some p =>
        if isPlayerReadyB p then
          applyPlaybackRateEffects t.id p t.rate ++
          seekSafeEffects t.id p (max 0 (0 - lookaheadMs / 1000)) ++
          pauseVideoEffects t.id p
        else []
      | none => []))

/-! ## Preload pipeline (src/lib/youtube/preload.ts, src/lib/config.ts)

The readiness prober drives one player through a muted seek-play-pause
cycle, polling its state and buffered fraction.  We model the remote
player as a behaviour environment: its capability surface, the initial
values the prober reads, whether playVideo throws, and the state and
buffered fraction it would report at each millisecond after play is
issued.  The prober is deterministic in that environment; its commands
mutate an explicit passive player state so theorems can inspect what the
prober leaves behind.  Timer waits are idealized to their nominal
durations (each 50ms poll sleep takes exactly 50ms), matching the
source's single-threaded timer semantics. -/

/-- PREROLL_DURATION_MS from PRELOAD_CONFIG in src/lib/config.ts. -/
def PREROLL_DURATION_MS : ℕ := 350

/-- PREROLL_BACK_SECONDS from PRELOAD_CONFIG in src/lib/config.ts. -/
def PREROLL_BACK_SECONDS : ℚ := 1

/-- READY_THRESHOLD_FRACTION from PRELOAD_CONFIG in src/lib/config.ts. -/
def READY_THRESHOLD_FRACTION : ℚ := 1/20

/-- PREROLL_TIMEOUT_MS from PRELOAD_CONFIG in src/lib/config.ts. -/
def PREROLL_TIMEOUT_MS : ℕ := 1500

/-- Whether sub occurs in hay, starting at any position (the substring
search Array#includes / String#includes performs). -/
def containsStrAux (sub : List Char) : List Char → Bool
  | [] => decide (sub = [])
  | c :: cs => sub.isPrefixOf (c :: cs) || containsStrAux sub cs

/-- Model of JavaScript String#includes. -/
def containsStr (hay sub : String) : Bool :=
  containsStrAux sub.toList hay.toList

/-- The failures a single preload attempt can produce, as structured
values; renderPreloadError prints the exact messages the source throws. -/
inductive PreloadErr where
  | notReadyErr : PreloadErr
  | autoplayBlocked : Bool → PreloadErr
  | stallErr : PreloadErr
  | stuckBuffering : PreloadErr
  | insufficient : ℚ → PreloadErr
  | playErr : String → PreloadErr
  deriving DecidableEq, Repr

/-- Model of JavaScript Number#toFixed(1) for the nonnegative fractions
the prober prints. -/
def toFixed1 (q : ℚ) : String :=
  let n : ℤ := ⌊q * 10 + 1/2⌋
  toString (n / 10) ++ "." ++ toString (n % 10)

/-- The message of the Error each failure throws inside preloadPlayer
(src/lib/youtube/preload.ts). -/
def preloadErrMessage : PreloadErr → String
  | PreloadErr.notReadyErr => "Player not ready"
  | PreloadErr.autoplayBlocked true =>
    "Autoplay blocked on iOS Safari - user interaction required"
  | PreloadErr.autoplayBlocked false =>
    "Autoplay blocked - user interaction required"
  | PreloadErr.stallErr => "Network timeout - no buffering progress detected"
  | PreloadErr.stuckBuffering => "Player stuck in buffering state"
  | PreloadErr.insufficient f =>
    "Insufficient content loaded (" ++ toFixed1 (f * 100) ++ "%, need " ++
      toFixed1 (READY_THRESHOLD_FRACTION * 100) ++ "%)"
  | PreloadErr.playErr msg => msg

/-- The error string armAll records for a failing track: the not-ready
check throws before the try block (unwrapped); every failure inside the
try block is re-thrown wrapped in the per-track message, where the
template stringifies the Error as "Error: message". -/
def renderPreloadError (trackId : String) : PreloadErr → String
  | PreloadErr.notReadyErr => "Player not ready"
  | e => "Preload failed for track " ++ trackId ++ ": Error: " ++
      preloadErrMessage e

/-- The behaviour environment of one remote player: the raw handle value
(for the capability guard), whether the host is iOS Safari, the initial
values the prober reads, whether playVideo throws (and with which
message), and the state / buffered fraction reported t milliseconds after
play was issued. -/
structure YTEnv where
  handleVal : JSVal
  isIOS : Bool
  initMuted : Bool
  initVolume : ℚ
  initRate : ℚ
  playThrows : Option String
  stateAt : ℕ → ℤ
  fracAt : ℕ → ℚ

/-- The passive state the prober's commands leave on the player. -/
structure PState where
  muted : Bool
  volume : ℚ
  rate : ℚ
  position : ℚ
  playing : Bool
  deriving DecidableEq, Repr

/-- Steps 1-3, written identically in PreloadManager.preloadPlayer and in
autoPreloadPlayer: setVolume(0), mute() unless already muted, re-apply
getPlaybackRate() || 1.0, and seek to max(firstCueTime -
PREROLL_BACK_SECONDS, 0).  (The || catches a falsy 0 rate; NaN has no
rational counterpart and is not modelled.) -/
def prerollPrefix (env : YTEnv) (firstCueTime : Option ℚ) : PState :=
  let s0 : PState := PState.mk env.initMuted env.initVolume env.initRate 0 false
  let s1 := { s0 with volume := 0 }
  let s2 := if s1.muted = false then { s1 with muted := true } else s1
  let s3 := { s2 with rate := if env.initRate = 0 then 1 else env.initRate }
  { s3 with position := max ((firstCueTime.getD 0) - PREROLL_BACK_SECONDS) 0 }

/-- The polling loop of PreloadManager.waitForBuffering, re-indexed by
poll number: poll i happens at 50i ms, and the loop runs while 50i <
maxWaitMs, so it performs exactly ceil(maxWaitMs / 50) polls
(remainingPolls counts down from that).  At each poll: state 3
(BUFFERING) returns; a buffered-fraction change below 0.001 bumps the
no-progress counter and a counter above 10 throws the network-stall
error; otherwise the counter resets and the last fraction updates. -/
def wfbGo (env : YTEnv) : ℕ → ℕ → ℚ → ℕ → Except PreloadErr ℕ
  | 0, i, _, _ => .ok (50 * i)
  | r + 1, i, lastFrac, noProg =>
    let st := env.stateAt (50 * i)
    let f := env.fracAt (50 * i)
    if st = 3 then .ok (50 * i)
    else if |f - lastFrac| < 1/1000 then
      if noProg + 1 > 10 then .error PreloadErr.stallErr
      else wfbGo env r (i + 1) lastFrac (noProg + 1)
    else wfbGo env r (i + 1) f 0

/-- Model of PreloadManager.waitForBuffering: returns the time at which
the loop exits (either on seeing BUFFERING or on exhausting the wait
budget), or the network-stall error. -/
def waitForBuffering (env : YTEnv) (maxWaitMs : ℕ) : Except PreloadErr ℕ :=
  wfbGo env ((maxWaitMs + 49) / 50) 0 0 0

/-- Model of PreloadManager.verifyPlayerReady: 200ms after the pause (at
time t), the player must not be BUFFERING and must have at least the
threshold fraction loaded. -/
def verifyPlayerReady (env : YTEnv) (t : ℕ) : Except PreloadErr Unit :=
  if env.stateAt (t + 200) = 3 then .error PreloadErr.stuckBuffering
  else if env.fracAt (t + 200) < READY_THRESHOLD_FRACTION then
    .error (PreloadErr.insufficient (env.fracAt (t + 200)))
  else .ok ()

/-- Model of PreloadManager.preloadPlayer (diagnostics recording is
modelled as disabled): capability check, muted preroll prefix, play
(rejections whose message mentions play or autoplay become the
distinguishable autoplay-blocked error, others are re-thrown as-is),
bounded buffering wait, pause, verification.  Returns the passive player
state left behind on success. -/
def preloadPlayer (env : YTEnv) (firstCueTime : Option ℚ) :
    Except PreloadErr PState :=
  if isPlayerReadyB env.handleVal = false then .error PreloadErr.notReadyErr
  else
    let s4 := prerollPrefix env firstCueTime
    match env.playThrows with
    | some msg =>
      if containsStr msg "play" || containsStr msg "autoplay" then
        .error (PreloadErr.autoplayBlocked env.isIOS)
      else .error (PreloadErr.playErr msg)
    | none =>
      let s5 := { s4 with playing := true }
      match waitForBuffering env PREROLL_DURATION_MS with
      | .error e => .error e
      | .ok t =>
        let s6 := { s5 with playing := false }
        match verifyPlayerReady env t with
        | .error e => .error e
        | .ok _ => .ok s6

/-- The preload summary armAll returns (needsGesture is the optional
field, defaulted false). -/
structure PreloadSummary where
  total : ℕ
  readyCount : ℕ
  errors : List (String × String)
  needsGesture : Bool
  deriving DecidableEq, Repr

/-- One settled per-track promise of armAll: a success bumps readyCount,
a failure stores its message under the track id and raises needsGesture
when the message mentions an autoplay block or a gesture requirement. -/
def armAllStep (firstCueTimes : String → Option ℚ) (acc : PreloadSummary)
    (pr : String × YTEnv) : PreloadSummary :=
  match preloadPlayer pr.2 (firstCueTimes pr.1) with
  | .ok _ => { acc with readyCount := acc.readyCount + 1 }
  | .error e =>
    let msg := renderPreloadError pr.1 e
    { acc with
      errors := mapSet acc.errors pr.1 msg,
      needsGesture := acc.needsGesture || containsStr msg "Autoplay blocked" ||
        containsStr msg "user gesture" }

/-- Model of PreloadManager.armAll: every track's attempt runs (the
promises are all settled, none discarded); outcomes are folded into the
summary.  Settle order cannot change counts or the per-key error map, so
the fold uses entry order. -/
def armAll (entries : List (String × YTEnv))
    (firstCueTimes : String → Option ℚ) : PreloadSummary :=
  let base : PreloadSummary :=
    { total := entries.length, readyCount := 0, errors := [],
      needsGesture := false }
  if entries.length = 0 then base
  else entries.foldl (armAllStep firstCueTimes) base

/-- Whether an attempt succeeded. -/
def exceptOk {ε α : Type} : Except ε α → Bool
  | .ok _ => true
  | .error _ => false

/-- The wait of autoPreloadPlayer races waitForNonBuffering (which polls
getPlayerState every 100ms starting at 100ms) against a
PREROLL_TIMEOUT_MS timer registered first: the preroll wins exactly when
some poll strictly before 1500ms sees a non-BUFFERING state, i.e. at one
of 100·1 .. 100·14 ms.  Returns that poll time. -/
def findNonBufferTime (env : YTEnv) : Option ℕ :=
  ((List.range' 1 14).find? (fun k => !(env.stateAt (100 * k) == 3))).map
    (fun k => 100 * k)

/-- Model of autoPreloadPlayer from src/lib/youtube/autoPreload.ts.
Returns (result, passive player state left behind, whether
policyGuard.registerPendingTrack was invoked).  On the successful path the
player is paused, unmuted and set to volume 100 before the loaded
fraction is read; the result is true only above the ready threshold. -/
def autoPreloadPlayer (env : YTEnv) (firstCueTime : Option ℚ) :
    Bool × PState × Bool :=
  if isPlayerReadyB env.handleVal = false then
    (false, PState.mk env.initMuted env.initVolume env.initRate 0 false, false)
  else
    let s4 := prerollPrefix env firstCueTime
    match env.playThrows with
    | some msg =>
      if containsStr msg "play" || containsStr msg "autoplay" then
        (false, s4, true)
      else (false, s4, false)
    | none =>
      let s5 := { s4 with playing := true }
      match findNonBufferTime env with
      | none => (false, s5, true)
      | some t =>
        let s6 := { s5 with playing := false }
        let s7 := { s6 with muted := false }
        let s8 := { s7 with volume := 100 }
        (decide (env.fracAt t > READY_THRESHOLD_FRACTION), s8, false)

/-- Scenario environment: a healthy player that buffers briefly and then
settles with half the video loaded. -/
def goodEnv : YTEnv where
  handleVal := goodPlayer
  isIOS := false
  initMuted := false
  initVolume := 100
  initRate := 1
  playThrows := none
  stateAt := fun t => if t < 100 then 3 else 1
  fracAt := fun _ => 1/2

/-- Scenario environment: a broken handle (null), never usable. -/
def badEnv : YTEnv where
  handleVal := JSVal.vNull
  isIOS := false
  initMuted := false
  initVolume := 100
  initRate := 1
  playThrows := none
  stateAt := fun _ => 1
  fracAt := fun _ => 0

/-- Scenario environment: a capable player whose buffered fraction never
moves and whose state never reaches BUFFERING (a stalled network): the
case the network-stall check was written for. -/
def flatlineEnv : YTEnv where
  handleVal := goodPlayer
  isIOS := false
  initMuted := false
  initVolume := 100
  initRate := 1
  playThrows := none
  stateAt := fun _ => 5
  fracAt := fun _ => 0

/-! ## Autoplay policy guard (src/lib/PolicyGuard.ts)

The guard keeps a Map of pending tracks (trackId to retryCount; the
stored player handle and cue time are opaque to its control flow), a
retryListener flag, and attaches document listeners with once semantics
on four interaction classes.  We model the document listener list, the
flag, and a log of every retry attempt (one entry per autoPreloadPlayer
invocation from the retry path).  The outcome of each retry attempt comes
from an oracle indexed by the attempt number, standing for the player and
network behaviour at that moment.  JavaScript microtask order matters and
is modelled faithfully: during a handler run, the first pending track's
synchronous prefix (where an autoplay-blocked playVideo rejection calls
registerPendingTrack) runs before removeRetryListener clears the flag;
everything after the first await - including all later tracks - runs
after the flag is cleared. -/

/-- The four interaction classes the guard listens to. -/
inductive EvClass where
  | click : EvClass
  | keydown : EvClass
  | touchstart : EvClass
  | mousedown : EvClass
  deriving DecidableEq, Repr

/-- How one autoPreloadPlayer retry attempt resolves. -/
inductive RetryOutcome where
  | ready : RetryOutcome
  | blockedSync : RetryOutcome
  | timeoutLate : RetryOutcome
  | notReady : RetryOutcome
  | throwErr : RetryOutcome
  deriving DecidableEq, Repr

/-- The guard's state plus the host page's listener registry.  attaches
counts how many times the listener set was actually attached;
handlerRuns counts handler executions; retriedLog records every retry
attempt in order. -/
structure GuardState where
  pending : List (String × ℕ)
  active : Bool
  listeners : List EvClass
  retriedLog : List String
  handlerRuns : ℕ
  attaches : ℕ
  deriving DecidableEq, Repr

/-- maxRetries from PolicyGuard. -/
def maxRetries : ℕ := 3

/-- Model of PolicyGuard.setupRetryListener: while the retryListener
field is set nothing happens; otherwise one once-listener per interaction
class is added to the document and the flag is set. -/
def setupRetryListener (s : GuardState) : GuardState :=
  if s.active then s
  else
    { s with
      listeners := s.listeners ++
        [EvClass.click, EvClass.keydown, EvClass.touchstart, EvClass.mousedown],
      active := true,
      attaches := s.attaches + 1 }

/-- Model of PolicyGuard.registerPendingTrack: an existing entry's
retryCount is incremented, a new track starts at 0; at maxRetries the
track is dropped (and the listener not touched), otherwise the entry is
stored and the listener set up. -/
def registerPendingTrack (trackId : String) (s : GuardState) : GuardState :=
  let retryCount :=
    match mapGet s.pending trackId with
    | some r => r + 1
    | none => 0
  if retryCount ≥ maxRetries then
    { s with pending := mapDelete s.pending trackId }
  else
    setupRetryListener { s with pending := mapSet s.pending trackId retryCount }

/-- One retried track of the asynchronous tail of retryPendingTracks: the
attempt is logged, then a success deletes the entry, an
autoplay-blocked or preroll-timeout failure re-registers (incrementing
the count, possibly dropping), and other failures leave the entry for the
next retry. -/
def processOutcome (oracle : ℕ → String → RetryOutcome) (t : String)
    (s : GuardState) : GuardState :=
  let o := oracle s.retriedLog.length t
  let s1 := { s with retriedLog := s.retriedLog ++ [t] }
  match o with
  | RetryOutcome.ready => { s1 with pending := mapDelete s1.pending t }
  | RetryOutcome.blockedSync => registerPendingTrack t s1
  | RetryOutcome.timeoutLate => registerPendingTrack t s1
  | RetryOutcome.notReady => s1
  | RetryOutcome.throwErr => s1

/-- The tracks retried after the handler's synchronous part. -/
def runHandlerRest (oracle : ℕ → String → RetryOutcome) :
    List String → GuardState → GuardState
  | [], s => s
  | t :: ts, s => runHandlerRest oracle ts (processOutcome oracle t s)

/-- One execution of the guard's handleUserInteraction: snapshot the
pending tracks; the first track's synchronous prefix runs first (so a
blockedSync outcome re-registers while the flag may still be set, before
removeRetryListener clears it), the timeout path re-registers only after
the flag was cleared, and the remaining tracks are processed after
that. -/
def runHandler (oracle : ℕ → String → RetryOutcome) (s : GuardState) :
    GuardState :=
  let s0 := { s with handlerRuns := s.handlerRuns + 1 }
  match s0.pending.map Prod.fst with
  | [] => { s0 with active := false }
  | t1 :: rest =>
    let s1 := { s0 with retriedLog := s0.retriedLog ++ [t1] }
    let s2 :=
      match oracle s0.retriedLog.length t1 with
      | RetryOutcome.blockedSync =>
        { registerPendingTrack t1 s1 with active := false }
      | RetryOutcome.ready =>
        { s1 with active := false, pending := mapDelete s1.pending t1 }
      | RetryOutcome.timeoutLate =>
        registerPendingTrack t1 { s1 with active := false }
      | RetryOutcome.notReady => { s1 with active := false }
      | RetryOutcome.throwErr => { s1 with active := false }
    runHandlerRest oracle rest s2

/-- Running the handler n times in sequence (one run per listener the
dispatched event had). -/
def fireLoop (oracle : ℕ → String → RetryOutcome) :
    ℕ → GuardState → GuardState
  | 0, s => s
  | n + 1, s => fireLoop oracle n (runHandler oracle s)

/-- Dispatch of one user-interaction event of class e: every attached
once-listener of that class is removed from the document and its handler
runs (listeners attached during the dispatch do not run for this
event). -/
def fireEvent (oracle : ℕ → String → RetryOutcome) (e : EvClass)
    (s : GuardState) : GuardState :=
  let n := s.listeners.count e
  fireLoop oracle n { s with listeners := s.listeners.filter (fun c => !(c == e)) }

/-- Model of PolicyGuard.clearPendingTracks: empties the map and clears
the flag; the comment in removeRetryListener relies on once-semantics, so
no document listener is actually detached. -/
def clearPendingTracks (s : GuardState) : GuardState :=
  { s with pending := [], active := false }

/-- The guard's external events: a fresh registration (an
autoPreloadPlayer failure outside the retry path), a user interaction,
and an explicit clear. -/
inductive GuardOp where
  | register : String → GuardOp
  | fire : EvClass → GuardOp
  | clear : GuardOp
  deriving DecidableEq, Repr

/-- One step of the guard state machine. -/
def guardStep (oracle : ℕ → String → RetryOutcome) :
    GuardOp → GuardState → GuardState
  | GuardOp.register id, s => registerPendingTrack id s
  | GuardOp.fire e, s => fireEvent oracle e s
  | GuardOp.clear, s => clearPendingTracks s

/-- Running a sequence of guard events. -/
def guardRun (oracle : ℕ → String → RetryOutcome) (ops : List GuardOp)
    (s : GuardState) : GuardState :=
  ops.foldl (fun s op => guardStep oracle op s) s

/-- The guard before anything is registered. -/
def initGuard : GuardState := GuardState.mk [] false [] [] 0 0

/-- The oracle of a track whose preload is rejected by the autoplay
policy on every attempt. -/
def alwaysBlocked : ℕ → String → RetryOutcome := fun _ _ =>
  RetryOutcome.blockedSync

/-- The oracle of a track whose retries resolve false without
re-registering (loaded fraction below threshold). -/
def alwaysNotReady : ℕ → String → RetryOutcome := fun _ _ =>
  RetryOutcome.notReady

end ChopTube

namespace ChopTube

open JSVal

/-! ## Theorems -/

/-- Helper: on an object, the short-circuit conjunction over the method
names computes the pure membership conjunction. -/
theorem everyIsFunction_obj (fs ms : List String) :
    everyIsFunction (vObj fs) ms = .ok (ms.all (fun m => fs.contains m)) := by
  induction ms with
  | nil => rfl
  | cons m ms ih =>
    have hstep : everyIsFunction (vObj fs) (m :: ms) =
        if fs.contains m = true then everyIsFunction (vObj fs) ms
        else .ok false := rfl
    rw [hstep]
    by_cases h : m ∈ fs
    · rw [if_pos (List.elem_iff.mpr h), ih]
      simp [h]
    · rw [if_neg (fun hc => h (List.elem_iff.mp hc))]
      simp [h]

/-- Helper: on a truthy primitive, the guard evaluates to false without
throwing. -/
theorem isPlayerReady_prim (v : JSVal) (hobj : v.isObj = false)
    (hnn : v ≠ vNull) (hnu : v ≠ vUndefined) :
    isPlayerReady v = .ok false := by
  cases v with
  | vObj fs => simp [isObj] at hobj
  | vNull => exact absurd rfl hnn
  | vUndefined => exact absurd rfl hnu
  | vBool b => cases b <;> rfl
  | vNum n =>
    cases n with
    | fin q =>
      by_cases h0 : q = 0
      · subst h0; rfl
      · have hf : (vNum (JSNum.fin q)).isFalsy = false := by
          simp [JSVal.isFalsy, h0]
        simp only [isPlayerReady, hf, Bool.false_eq_true, if_false]
        rfl
    | _ => rfl
  | vStr s =>
    by_cases h0 : s = ""
    · subst h0; rfl
    · have hf : (vStr s).isFalsy = false := by simp [JSVal.isFalsy, h0]
      simp only [isPlayerReady, hf, Bool.false_eq_true, if_false]
      rfl

/-- C9: the capability guard isPlayerReady returns false for every null or
undefined handle, every non-object handle, and every object handle missing
one of the required methods, and its evaluation never throws for any
input. -/
theorem c9_capability_guard (v : JSVal) :
    (∃ b, isPlayerReady v = .ok b) ∧
    ((v = vNull ∨ v = vUndefined) → isPlayerReady v = .ok false) ∧
    (v.isObj = false → isPlayerReady v = .ok false) ∧
    (∀ fs, v = vObj fs → (∃ m ∈ requiredMethods, ¬ fs.contains m) →
      isPlayerReady v = .ok false) := by
  have hobjEq : ∀ fs, isPlayerReady (vObj fs) =
      .ok (requiredMethods.all (fun m => fs.contains m)) := by
    intro fs
    simp only [isPlayerReady, JSVal.isFalsy, Bool.false_eq_true, if_false]
    exact everyIsFunction_obj fs requiredMethods
  refine ⟨?_, ?_, ?_, ?_⟩
  · cases v with
    | vObj fs => exact ⟨_, hobjEq fs⟩
    | vNull => exact ⟨false, rfl⟩
    | vUndefined => exact ⟨false, rfl⟩
    | _ =>
      refine ⟨false, isPlayerReady_prim _ rfl ?_ ?_⟩ <;> intro h <;> exact JSVal.noConfusion h
  · rintro (rfl | rfl) <;> rfl
  · intro h
    cases v with
    | vObj fs => simp [isObj] at h
    | vNull => rfl
    | vUndefined => rfl
    | _ =>
      refine isPlayerReady_prim _ rfl ?_ ?_ <;> intro h <;> exact JSVal.noConfusion h
  · rintro fs rfl ⟨m, hm, hmem⟩
    rw [hobjEq fs]
    have : requiredMethods.all (fun m => fs.contains m) = false := by
      rw [List.all_eq_false]
      exact ⟨m, hm, by simpa using hmem⟩
    rw [this]

/-- C9 witness: the guard evaluated at a handle missing getDuration. -/
theorem c9_capability_guard_witness :
    isPlayerReady (JSVal.vObj ["setPlaybackRate", "getCurrentTime"]) = .ok false :=
  (c9_capability_guard _).2.2.2 _ rfl ⟨"getDuration", by decide, by decide⟩

/-- C8: every rate stored by setTrackRate is a member of the allowed
discrete rate set, and any input outside that set, including non-finite
and non-numeric values, is replaced by the default rate 1.0. -/
theorem c8_rate_quantization (tracks : List Track) (trackId : String) (v : JSVal) :
    (∀ t ∈ setTrackRate trackId v tracks, t.id = trackId →
      t.rate ∈ ALLOWED_RATES ∧ t.rate = sanitizeTrackRate v) ∧
    sanitizeTrackRate v ∈ ALLOWED_RATES ∧
    ((∀ q, v = JSVal.vNum (JSNum.fin q) → q ∉ ALLOWED_RATES) →
      sanitizeTrackRate v = DEFAULT_RATE) := by
  have hd : DEFAULT_RATE ∈ ALLOWED_RATES := by
    norm_num [ALLOWED_RATES, DEFAULT_RATE]
  have hmem : sanitizeTrackRate v ∈ ALLOWED_RATES := by
    cases v with
    | vNum n =>
      cases n with
      | fin q =>
        simp only [sanitizeTrackRate]
        split
        · next h => exact List.elem_iff.mp h
        · exact hd
      | nan => exact hd
      | posInf => exact hd
      | negInf => exact hd
    | vNull => exact hd
    | vUndefined => exact hd
    | vBool b => exact hd
    | vStr s => exact hd
    | vObj fs => exact hd
  refine ⟨?_, hmem, ?_⟩
  · intro t ht hid
    simp only [setTrackRate, List.mem_map] at ht
    obtain ⟨t0, -, rfl⟩ := ht
    by_cases h : (t0.id == trackId) = true
    · rw [if_pos h]
      exact ⟨hmem, rfl⟩
    · rw [if_neg h] at hid ⊢
      exact absurd (beq_iff_eq.mpr hid) h
  · intro h
    cases v with
    | vNum n =>
      cases n with
      | fin q =>
        have hq := h q rfl
        simp only [sanitizeTrackRate]
        rw [if_neg (fun hc => hq (List.elem_iff.mp hc))]
      | nan => rfl
      | posInf => rfl
      | negInf => rfl
    | vNull => rfl
    | vUndefined => rfl
    | vBool b => rfl
    | vStr s => rfl
    | vObj fs => rfl

/-- C8 witness: storing the out-of-set rate 0.35 on a track yields the
default rate 1, which is in the allowed set. -/
theorem c8_rate_quantization_witness :
    ∀ t ∈ setTrackRate "video1" (vNum (JSNum.fin (7/20)))
        [{ id := "video1", rate := 2 }], t.rate = 1 ∧ t.rate ∈ ALLOWED_RATES := by
  have hc := c8_rate_quantization [{ id := "video1", rate := 2 }] "video1"
    (vNum (JSNum.fin (7/20)))
  have hdefault : sanitizeTrackRate (vNum (JSNum.fin (7/20))) = DEFAULT_RATE := by
    refine hc.2.2 ?_
    intro q hq
    injection hq with hq
    injection hq with hq
    rw [← hq]
    norm_num [ALLOWED_RATES]
  intro t ht
  have hid : t.id = "video1" := by
    simp [setTrackRate] at ht
    rw [ht]
  have h1 := hc.1 t ht hid
  refine ⟨?_, h1.1⟩
  rw [h1.2, hdefault]
  rfl

/-- Helper: a cleared deck reports no playing pad. -/
theorem clearDeck_not_playing (d : DeckState) :
    deckHasPlaying (clearDeck d) = false := by
  simp [deckHasPlaying, clearDeck, List.any_map, Function.comp]

/-- Invariant carried through the pad state machine: at most one deck is
playing, and a deck whose player is not ready has no playing pad. -/
def PadInv (s : PageState) : Prop :=
  atMostOnePlaying s ∧
  (s.ready1 = false → deckHasPlaying s.deck1 = false) ∧
  (s.ready2 = false → deckHasPlaying s.deck2 = false)

/-- Helper: the pad handlers never change the readiness flags. -/
theorem padStep_ready (e : PadEvent) (s : PageState) :
    (padStep e s).1.ready1 = s.ready1 ∧ (padStep e s).1.ready2 = s.ready2 := by
  cases e <;>
    simp only [padStep, handlePadTrigger1, handlePadTrigger2, handlePadStop1,
      handlePadStop2] <;>
    split <;> (try split) <;> simp

/-- Helper: each pad event preserves the invariant. -/
theorem padStep_inv (e : PadEvent) (s : PageState) (h : PadInv s) :
    PadInv (padStep e s).1 := by
  obtain ⟨hone, hr1, hr2⟩ := h
  cases e with
  | trigger1 ts =>
    simp only [padStep, handlePadTrigger1]
    by_cases h1 : s.ready1 = true
    · rw [if_pos h1]
      by_cases h2 : s.ready2 = true
      · rw [if_pos h2]
        refine ⟨Or.inr (clearDeck_not_playing _), ?_, ?_⟩
        · intro hc; rw [h1] at hc; exact Bool.noConfusion hc
        · intro _; exact clearDeck_not_playing _
      · have h2' : s.ready2 = false := by
          cases hkind : s.ready2
          · rfl
          · exact absurd hkind h2
        rw [if_neg (by simp [h2'])]
        refine ⟨Or.inr (hr2 h2'), ?_, fun _ => hr2 h2'⟩
        intro hc; rw [h1] at hc; exact Bool.noConfusion hc
    · rw [if_neg h1]
      exact ⟨hone, hr1, hr2⟩
  | trigger2 ts =>
    simp only [padStep, handlePadTrigger2]
    by_cases h2 : s.ready2 = true
    · rw [if_pos h2]
      by_cases h1 : s.ready1 = true
      · rw [if_pos h1]
        refine ⟨Or.inl (clearDeck_not_playing _), ?_, ?_⟩
        · intro _; exact clearDeck_not_playing _
        · intro hc; rw [h2] at hc; exact Bool.noConfusion hc
      · have h1' : s.ready1 = false := by
          cases hkind : s.ready1
          · rfl
          · exact absurd hkind h1
        rw [if_neg (by simp [h1'])]
        refine ⟨Or.inl (hr1 h1'), fun _ => hr1 h1', ?_⟩
        intro hc; rw [h2] at hc; exact Bool.noConfusion hc
    · rw [if_neg h2]
      exact ⟨hone, hr1, hr2⟩
  | stop1 =>
    simp only [padStep, handlePadStop1]
    by_cases h1 : s.ready1 = true
    · rw [if_pos h1]
      exact ⟨Or.inl (clearDeck_not_playing _), fun _ => clearDeck_not_playing _, hr2⟩
    · rw [if_neg h1]
      exact ⟨hone, hr1, hr2⟩
  | stop2 =>
    simp only [padStep, handlePadStop2]
    by_cases h2 : s.ready2 = true
    · rw [if_pos h2]
      exact ⟨Or.inr (clearDeck_not_playing _), hr1, fun _ => clearDeck_not_playing _⟩
    · rw [if_neg h2]
      exact ⟨hone, hr1, hr2⟩

/-- Helper: the invariant holds after any run from an invariant state. -/
theorem runPadEvents_inv (evs : List PadEvent) (s : PageState) (h : PadInv s) :
    PadInv (runPadEvents evs s) := by
  induction evs generalizing s with
  | nil => exact h
  | cons e evs ih => exact ih _ (padStep_inv e s h)

/-- C1: starting from a page on which no pad is playing, any sequence of
pad-trigger and pad-stop calls leaves at most one deck with a playing pad
after each call; moreover, when both players are ready, a trigger on deck
1 pauses deck 2 and clears its pad markers before seeking and playing
deck 1. -/
theorem c1_deck_mutual_exclusion (s0 : PageState) (evs : List PadEvent)
    (h1 : deckHasPlaying s0.deck1 = false)
    (h2 : deckHasPlaying s0.deck2 = false) :
    atMostOnePlaying (runPadEvents evs s0) ∧
    (∀ ts, s0.ready1 = true → s0.ready2 = true →
      (handlePadTrigger1 ts s0).2 =
        [PadEffect.pauseEff DeckId.d2, PadEffect.seekEff DeckId.d1 ts,
          PadEffect.playEff DeckId.d1] ∧
      deckHasPlaying (handlePadTrigger1 ts s0).1.deck2 = false) := by
  constructor
  · exact (runPadEvents_inv evs s0 ⟨Or.inl h1, fun _ => h1, fun _ => h2⟩).1
  · intro ts hr1 hr2
    simp only [handlePadTrigger1, if_pos hr1, if_pos hr2]
    exact ⟨rfl, clearDeck_not_playing _⟩

/-- C1 witness: a concrete two-deck page, both ready, one pad each, after
triggering deck 1 then deck 2. -/
theorem c1_deck_mutual_exclusion_witness :
    atMostOnePlaying (runPadEvents
      [PadEvent.trigger1 5, PadEvent.trigger2 3]
      { deck1 := { pads := [{ id := 0, timestamp := 5, isPlaying := false }] },
        deck2 := { pads := [{ id := 0, timestamp := 3, isPlaying := false }] },
        ready1 := true, ready2 := true }) :=
  (c1_deck_mutual_exclusion _ _ (by rfl) (by rfl)).1

/-- Helper: the capable player passes the capability guard. -/
theorem goodPlayer_ready : isPlayerReadyB goodPlayer = true := rfl

/-- Helper: every effect a ready track contributes in startTransport is
addressed to that track. -/
theorem primeEffects_track (t : Track) (p : JSVal) (la : ℚ) :
    ∀ e ∈ applyPlaybackRateEffects t.id p t.rate ++
        seekSafeEffects t.id p (max 0 (0 - la / 1000)) ++
        pauseVideoEffects t.id p,
      effTrack e = t.id := by
  intro e he
  simp only [applyPlaybackRateEffects, seekSafeEffects, pauseVideoEffects,
    List.mem_append] at he
  rcases he with (he | he) | he <;>
    [skip; skip; skip] <;>
    (revert he; split <;> simp +contextual [effTrack])

/-- Helper: the block contributed by a member of a list is a sublist of
the flatMap. -/
theorem flatMap_sublist_of_mem {α β : Type} (f : α → List β) {l : List α}
    {t : α} (ht : t ∈ l) : (f t).Sublist (l.flatMap f) := by
  induction l with
  | nil => cases ht
  | cons a l ih =>
    rcases List.mem_cons.mp ht with rfl | h
    · simp only [List.flatMap_cons]
      exact List.sublist_append_left (f t) (l.flatMap f)
    · simpa using (ih h).trans (List.sublist_append_right (f a) (l.flatMap f))

/-- C5 counterexample: a track that is not ready, with a fully capable
player attached, is NOT primed by startTransport: the call only emits the
warning and no effect at all, refuting the claim that not-ready tracks
are still primed best-effort. -/
theorem c5_not_ready_not_primed_counterexample :
    startTransport
        [{ id := "video1", playerRef := some goodPlayer, rate := 1, ready := false }]
        120 =
      (["Starting transport with 1 tracks not ready. Consider preloading first."],
        []) ∧
    ¬ ∃ e ∈ (startTransport
        [{ id := "video1", playerRef := some goodPlayer, rate := 1, ready := false }]
        120).2, effTrack e = "video1" := by
  refine ⟨rfl, ?_⟩
  rintro ⟨e, he, -⟩
  rw [show (startTransport
      [{ id := "video1", playerRef := some goodPlayer, rate := 1, ready := false }]
      120).2 = [] from rfl] at he
  exact List.not_mem_nil e he

/-- C5 amended: startTransport warns exactly when some track is not
ready; a not-ready track receives no effect at all (it is skipped, not
primed); every ready track with a capable player is primed with its
clamped rate, a seek to position 0 (the backward offset from start 0 by
lookahead seconds, clamped at zero) and a pause. -/
theorem c5_start_transport_amended (tracks : List Track) (lookaheadMs : ℚ)
    (hla : 0 ≤ lookaheadMs) (hnd : (tracks.map Track.id).Nodup) :
    ((startTransport tracks lookaheadMs).1 ≠ [] ↔ ∃ t ∈ tracks, t.ready = false) ∧
    (∀ t ∈ tracks, t.ready = false →
      ∀ e ∈ (startTransport tracks lookaheadMs).2, effTrack e ≠ t.id) ∧
    (∀ t ∈ tracks, ∀ p, t.ready = true → t.playerRef = some p →
      isPlayerReadyB p = true → hasFun p "setPlaybackRate" = true →
      hasFun p "seekTo" = true → hasFun p "pauseVideo" = true →
      [TEffect.rateE t.id (max (1/4) (min 2 t.rate)), TEffect.seekE t.id 0,
        TEffect.pauseE t.id].Sublist (startTransport tracks lookaheadMs).2) := by
  have hseekpos : max 0 (0 - lookaheadMs / 1000) = (0 : ℚ) := by
    rw [max_eq_left]
    have : 0 ≤ lookaheadMs / 1000 := by positivity
    linarith
  have hseekpos2 : (0 : ℚ) ⊔ -(lookaheadMs / 1000) = 0 := by
    rw [sup_eq_left]
    have : 0 ≤ lookaheadMs / 1000 := by positivity
    linarith
  have hwarn : (startTransport tracks lookaheadMs).1 =
      if 0 < (tracks.filter (fun t => !t.ready)).length then
        ["Starting transport with " ++
          toString (tracks.filter (fun t => !t.ready)).length ++
          " tracks not ready. Consider preloading first."]
      else [] := rfl
  refine ⟨?_, ?_, ?_⟩
  · rw [hwarn]
    constructor
    · intro hne
      by_cases hc : 0 < (tracks.filter (fun t => !t.ready)).length
      · obtain ⟨t, htf⟩ := List.exists_mem_of_length_pos hc
        have hm := List.mem_filter.mp htf
        exact ⟨t, hm.1, by simpa using hm.2⟩
      · rw [if_neg hc] at hne
        exact absurd rfl hne
    · intro ⟨t, ht, hr⟩
      have hmem : t ∈ tracks.filter (fun t => !t.ready) :=
        List.mem_filter.mpr ⟨ht, by simp [hr]⟩
      have hc : 0 < (tracks.filter (fun t => !t.ready)).length :=
        List.length_pos.mpr (fun hnil => by simp [hnil] at hmem)
      rw [if_pos hc]
      simp
  · intro t ht hr e he
    simp only [startTransport, List.mem_flatMap] at he
    obtain ⟨t', ht', he'⟩ := he
    have ht'tracks : t' ∈ tracks := (List.mem_filter.mp ht').1
    have ht'ready : t'.ready = true := by
      have := (List.mem_filter.mp ht').2
      simp at this
      exact this.1
    intro heq
    have hefft : effTrack e = t'.id := by
      split at he'
      next p hp =>
        split at he'
        · exact primeEffects_track t' p lookaheadMs e he'
        · simp at he'
      next hp => simp at he'
    have : t' = t :=
      List.inj_on_of_nodup_map hnd ht'tracks ht (by rw [← hefft, heq])
    rw [this] at ht'ready
    rw [ht'ready] at hr
    exact Bool.noConfusion hr
  · intro t ht p hr hp hb hf1 hf2 hf3
    have htr : t ∈ tracks.filter (fun t => t.ready && t.playerRef.isSome) :=
      List.mem_filter.mpr ⟨ht, by simp [hr, hp]⟩
    have hsub := flatMap_sublist_of_mem (fun t : Track =>
        match t.playerRef with
        | some p =>
          if isPlayerReadyB p then
            applyPlaybackRateEffects t.id p t.rate ++
            seekSafeEffects t.id p (max 0 (0 - lookaheadMs / 1000)) ++
            pauseVideoEffects t.id p
          else []
        | none => []) htr
    simp only [hp, hb, if_true, hseekpos, applyPlaybackRateEffects,
      seekSafeEffects, pauseVideoEffects, hf1, hf2, hf3] at hsub
    simpa [startTransport, applyPlaybackRateEffects, seekSafeEffects,
      pauseVideoEffects, hseekpos, hseekpos2] using hsub

/-- C5 witness: a ready track with a capable player next to a not-ready
track; the ready track is primed with rate 1, seek 0, pause. -/
theorem c5_start_transport_witness :
    [TEffect.rateE "video1" 1, TEffect.seekE "video1" 0,
      TEffect.pauseE "video1"].Sublist
      (startTransport
        [{ id := "video1", playerRef := some goodPlayer, rate := 1, ready := true },
         { id := "video2", rate := 1, ready := false }] 120).2 := by
  have h := (c5_start_transport_amended
    [{ id := "video1", playerRef := some goodPlayer, rate := 1, ready := true },
     { id := "video2", rate := 1, ready := false }] 120
    (by norm_num) (by simp)).2.2
    { id := "video1", playerRef := some goodPlayer, rate := 1, ready := true }
    (by simp) goodPlayer rfl rfl goodPlayer_ready rfl rfl rfl
  have hclamp : (max (1/4) (min 2 1) : ℚ) = 1 := by norm_num
  rw [hclamp] at h
  exact h

/-! ### Transport manager lemmas -/

/-- Helper: setting a key makes it readable. -/
theorem mapGet_mapSet_self {α : Type} (l : List (String × α)) (k : String) (v : α) :
    mapGet (mapSet l k v) k = some v := by
  induction l with
  | nil => simp [mapSet, mapGet]
  | cons kv rest ih =>
    obtain ⟨k', v'⟩ := kv
    by_cases h : (k' == k) = true
    · simp [mapSet, mapGet, h]
    · simp [mapSet, mapGet, h, ih]

/-- Helper: setting a key leaves other keys unchanged. -/
theorem mapGet_mapSet_ne {α : Type} (l : List (String × α)) (k : String) (v : α)
    (k' : String) (hne : k' ≠ k) :
    mapGet (mapSet l k v) k' = mapGet l k' := by
  induction l with
  | nil =>
    have h1 : (k == k') = false := by
      simp only [beq_eq_false_iff_ne, ne_eq]
      exact fun hkk => hne hkk.symm
    simp [mapSet, mapGet, h1]
  | cons kv rest ih =>
    obtain ⟨a, b⟩ := kv
    by_cases h : (a == k) = true
    · have hak : a = k := by simpa using h
      simp only [mapSet, h, if_true]
      have h1 : (k == k') = false := by
        simp only [beq_eq_false_iff_ne, ne_eq]
        exact fun hkk => hne hkk.symm
      have h2 : (a == k') = false := by rw [hak]; exact h1
      simp [mapGet, h1, h2]
    · simp only [mapSet, h, if_false]
      by_cases h3 : (a == k') = true
      · simp [mapGet, h3]
      · simp [mapGet, h3, ih]

/-- Helper: the trace after firing a timer. -/
theorem fireTimer_trace (tm : Timer) (st : TMState) :
    (fireTimer tm st).trace =
      st.trace ++ (actionEffects tm.act).map (TraceEntry.mk (some tm.tid)) := by
  obtain ⟨tid, due, act⟩ := tm
  cases act <;> rfl

/-- Helper: the timers after firing a timer. -/
theorem fireTimer_timers (tm : Timer) (st : TMState) :
    (fireTimer tm st).timers = st.timers.erase tm := by
  obtain ⟨tid, due, act⟩ := tm
  cases act <;> rfl

/-- Helper: the selected earliest timer is one of the pending timers. -/
theorem minTimer_mem (t : Timer) (ts : List Timer) : minTimer t ts ∈ t :: ts := by
  induction ts generalizing t with
  | nil => simp [minTimer]
  | cons u us ih =>
    show minTimer (if timerLe t u then t else u) us ∈ t :: u :: us
    by_cases hc : timerLe t u = true
    · rw [if_pos hc]
      rcases List.mem_cons.mp (ih t) with h1 | h1
      · rw [h1]; exact List.mem_cons_self t (u :: us)
      · exact List.mem_cons_of_mem t (List.mem_cons_of_mem u h1)
    · rw [if_neg hc]
      rcases List.mem_cons.mp (ih u) with h1 | h1
      · rw [h1]; exact List.mem_cons_of_mem t (List.mem_cons_self u us)
      · exact List.mem_cons_of_mem t (List.mem_cons_of_mem u h1)

/-- Helper: every trace entry after running the event loop either was
already present or is tagged with the id of a timer that was pending when
the run started: the loop fires pending timers and nothing else. -/
theorem runTimersFuel_trace (n : ℕ) :
    ∀ st : TMState, ∀ e ∈ (runTimersFuel n st).trace,
      e ∈ st.trace ∨ ∃ tm ∈ st.timers, e.src = some tm.tid := by
  induction n with
  | zero => intro st e he; exact Or.inl he
  | succ n ih =>
    intro st e he
    rw [runTimersFuel] at he
    cases hts : st.timers with
    | nil =>
      simp only [runStep, hts] at he
      exact Or.inl he
    | cons t ts =>
      simp only [runStep, hts] at he
      rcases ih (fireTimer (minTimer t ts) st) e he with h1 | ⟨tm, htm, hsrc⟩
      · rw [fireTimer_trace] at h1
        rcases List.mem_append.mp h1 with h2 | h2
        · exact Or.inl h2
        · obtain ⟨eff, -, rfl⟩ := List.mem_map.mp h2
          exact Or.inr ⟨minTimer t ts, minTimer_mem t ts, rfl⟩
      · rw [fireTimer_timers, hts] at htm
        exact Or.inr ⟨tm, List.erase_subset _ _ htm, hsrc⟩

/-- Well-formedness of the transport manager state: timer ids are unique
and below the allocation counter; every pending play timer is the one its
track's map entry names; map entries are below the counter and can only
name play timers of their own track; trace tags are below the counter. -/
def WFtm (st : TMState) : Prop :=
  (st.timers.map Timer.tid).Nodup ∧
  (∀ tm ∈ st.timers, tm.tid < st.nextTid) ∧
  (∀ tm ∈ st.timers, ∀ id p, tm.act = TAction.playA id p →
    mapGet st.scheduledPlays id = some tm.tid) ∧
  (∀ id τ, mapGet st.scheduledPlays id = some τ →
    τ < st.nextTid ∧
    ∀ tm ∈ st.timers, tm.tid = τ → ∃ p, tm.act = TAction.playA id p) ∧
  (∀ e ∈ st.trace, ∀ τ, e.src = some τ → τ < st.nextTid)

/-- Helper: a true isPlayFor means the action is the play of that
track. -/
theorem isPlayFor_true {act : TAction} {trackId : String}
    (h : isPlayFor act trackId = true) : ∃ p, act = TAction.playA trackId p := by
  cases act with
  | seekA id p q => simp [isPlayFor] at h
  | playA id p =>
    have : id = trackId := by simpa [isPlayFor] using h
    exact ⟨p, by rw [this]⟩

/-- Helper: clearTimeout does not touch the map, counter, clock or
trace. -/
theorem clearScheduled_fields (trackId : String) (st : TMState) :
    (clearScheduled trackId st).scheduledPlays = st.scheduledPlays ∧
    (clearScheduled trackId st).nextTid = st.nextTid ∧
    (clearScheduled trackId st).now = st.now ∧
    (clearScheduled trackId st).trace = st.trace := by
  unfold clearScheduled
  split <;> exact ⟨rfl, rfl, rfl, rfl⟩

/-- Helper: the timers after clearTimeout are a sublist of the previous
timers. -/
theorem clearScheduled_sublist (trackId : String) (st : TMState) :
    (clearScheduled trackId st).timers.Sublist st.timers := by
  unfold clearScheduled
  split
  · exact List.filter_sublist _
  · exact List.Sublist.refl _

/-- Helper: clearTimeout preserves well-formedness. -/
theorem wf_clearScheduled (trackId : String) (st : TMState) (h : WFtm st) :
    WFtm (clearScheduled trackId st) := by
  obtain ⟨hnd, hb, hpm, hmp, htr⟩ := h
  obtain ⟨hf1, hf2, hf3, hf4⟩ := clearScheduled_fields trackId st
  have hsub := clearScheduled_sublist trackId st
  have hmem : ∀ tm ∈ (clearScheduled trackId st).timers, tm ∈ st.timers :=
    fun tm htm => hsub.subset htm
  refine ⟨(hsub.map Timer.tid).nodup hnd, ?_, ?_, ?_, ?_⟩
  · intro tm htm; rw [hf2]; exact hb tm (hmem tm htm)
  · intro tm htm id p hact; rw [hf1]; exact hpm tm (hmem tm htm) id p hact
  · intro id τ hg
    rw [hf1] at hg
    rw [hf2]
    exact ⟨(hmp id τ hg).1, fun tm htm ht => (hmp id τ hg).2 tm (hmem tm htm) ht⟩
  · intro e he τ hs
    rw [hf4] at he
    rw [hf2]
    exact htr e he τ hs

/-- Helper: after clearTimeout there is no pending play timer for the
cleared track (in a well-formed state every such timer carried the id the
map named, which the filter removes). -/
theorem clearScheduled_noPlay (trackId : String) (st : TMState) (h : WFtm st) :
    ∀ tm ∈ (clearScheduled trackId st).timers,
      isPlayFor tm.act trackId = false := by
  obtain ⟨-, -, hpm, -, -⟩ := h
  intro tm htm
  by_contra hplay
  have hplay' : isPlayFor tm.act trackId = true := by
    cases hval : isPlayFor tm.act trackId
    · exact absurd hval hplay
    · rfl
  obtain ⟨p, hact⟩ := isPlayFor_true hplay'
  unfold clearScheduled at htm
  revert htm
  split
  next tid0 hg =>
    intro htm
    have htm' : tm ∈ st.timers := (List.mem_filter.mp htm).1
    have hmg := hpm tm htm' trackId p hact
    rw [hg] at hmg
    have htid : tm.tid = tid0 := by injection hmg with h1; exact h1.symm
    have hfil := (List.mem_filter.mp htm).2
    rw [htid] at hfil
    simp at hfil
  next hg =>
    intro htm
    have hmg := hpm tm htm trackId p hact
    rw [hg] at hmg
    exact Option.noConfusion hmg

/-- Helper: the seek stage does not touch the map, clock or trace and
can only advance the counter. -/
theorem addSeekTimer_fields (trackId : String) (p : JSVal) (T L : ℚ)
    (st1 : TMState) :
    (addSeekTimer trackId p T L st1).scheduledPlays = st1.scheduledPlays ∧
    (addSeekTimer trackId p T L st1).now = st1.now ∧
    (addSeekTimer trackId p T L st1).trace = st1.trace ∧
    st1.nextTid ≤ (addSeekTimer trackId p T L st1).nextTid := by
  simp only [addSeekTimer]
  split <;> simp

/-- Helper: the seek stage either leaves the timers unchanged or appends
one seek timer carrying the fresh id. -/
theorem addSeekTimer_timers (trackId : String) (p : JSVal) (T L : ℚ)
    (st1 : TMState) :
    ((addSeekTimer trackId p T L st1).timers = st1.timers ∧
      (addSeekTimer trackId p T L st1).nextTid = st1.nextTid) ∨
    ((addSeekTimer trackId p T L st1).timers = st1.timers ++
        [Timer.mk st1.nextTid (st1.now + max 0 (T * 1000 - L - st1.now))
          (TAction.seekA trackId p (max 0 (T - L / 1000)))] ∧
      (addSeekTimer trackId p T L st1).nextTid = st1.nextTid + 1) := by
  simp only [addSeekTimer]
  split
  · exact Or.inr ⟨rfl, rfl⟩
  · exact Or.inl ⟨rfl, rfl⟩

/-- Helper: when the seek deadline is still in the future the seek stage
appends the seek timer. -/
theorem addSeekTimer_pending (trackId : String) (p : JSVal) (T L : ℚ)
    (st1 : TMState) (hpend : st1.now < T * 1000 - L) :
    (addSeekTimer trackId p T L st1).timers = st1.timers ++
      [Timer.mk st1.nextTid (st1.now + max 0 (T * 1000 - L - st1.now))
        (TAction.seekA trackId p (max 0 (T - L / 1000)))] ∧
    (addSeekTimer trackId p T L st1).nextTid = st1.nextTid + 1 := by
  simp only [addSeekTimer]
  have hpos : 0 < max 0 (T * 1000 - L - st1.now) :=
    lt_max_of_lt_right (by linarith)
  rw [if_pos hpos]
  exact ⟨rfl, rfl⟩

/-- Helper: the seek stage preserves well-formedness. -/
theorem wf_addSeekTimer (trackId : String) (p : JSVal) (T L : ℚ)
    (st1 : TMState) (h : WFtm st1) : WFtm (addSeekTimer trackId p T L st1) := by
  obtain ⟨hnd, hb, hpm, hmp, htr⟩ := h
  simp only [addSeekTimer]
  split
  · refine ⟨?_, ?_, ?_, ?_, ?_⟩
    · rw [List.map_append]
      rw [List.nodup_append]
      refine ⟨hnd, by simp, ?_⟩
      intro a ha hb'
      simp only [List.map_cons, List.map_nil, List.mem_singleton] at hb'
      obtain ⟨tm, htm, rfl⟩ := List.mem_map.mp ha
      exact absurd hb' (Nat.ne_of_lt (hb tm htm))
    · intro tm htm
      rcases List.mem_append.mp htm with h1 | h1
      · exact Nat.lt_succ_of_lt (hb tm h1)
      · rw [List.mem_singleton.mp h1]
        exact Nat.lt_succ_self _
    · intro tm htm id pq hact
      rcases List.mem_append.mp htm with h1 | h1
      · exact hpm tm h1 id pq hact
      · rw [List.mem_singleton.mp h1] at hact
        exact TAction.noConfusion hact
    · intro id τ hg
      refine ⟨Nat.lt_succ_of_lt (hmp id τ hg).1, ?_⟩
      intro tm htm ht
      rcases List.mem_append.mp htm with h1 | h1
      · exact (hmp id τ hg).2 tm h1 ht
      · rw [List.mem_singleton.mp h1] at ht
        exact absurd (ht ▸ (hmp id τ hg).1) (lt_irrefl _)
    · intro e he τ hs
      exact Nat.lt_succ_of_lt (htr e he τ hs)
  · exact ⟨hnd, hb, hpm, hmp, htr⟩

/-- Helper: the seek stage introduces no play timer for any track. -/
theorem addSeekTimer_noPlay (trackId trackId' : String) (p : JSVal) (T L : ℚ)
    (st1 : TMState)
    (h : ∀ tm ∈ st1.timers, isPlayFor tm.act trackId' = false) :
    ∀ tm ∈ (addSeekTimer trackId p T L st1).timers,
      isPlayFor tm.act trackId' = false := by
  intro tm htm
  rcases addSeekTimer_timers trackId p T L st1 with ⟨he, -⟩ | ⟨he, -⟩
  · rw [he] at htm
    exact h tm htm
  · rw [he] at htm
    rcases List.mem_append.mp htm with h1 | h1
    · exact h tm h1
    · rw [List.mem_singleton.mp h1]
      rfl

/-- Helper: when the play deadline is still in the future the play stage
appends the play timer and records it in the map. -/
theorem addPlayTimer_pending (trackId : String) (p : JSVal) (T : ℚ)
    (st2 : TMState) (hpend : st2.now < T * 1000) :
    (addPlayTimer trackId p T st2).timers = st2.timers ++
      [Timer.mk st2.nextTid (st2.now + max 0 (T * 1000 - st2.now))
        (TAction.playA trackId p)] ∧
    (addPlayTimer trackId p T st2).scheduledPlays =
      mapSet st2.scheduledPlays trackId st2.nextTid ∧
    (addPlayTimer trackId p T st2).nextTid = st2.nextTid + 1 ∧
    (addPlayTimer trackId p T st2).now = st2.now ∧
    (addPlayTimer trackId p T st2).trace = st2.trace := by
  simp only [addPlayTimer]
  have hpos : 0 < max 0 (T * 1000 - st2.now) :=
    lt_max_of_lt_right (by linarith)
  rw [if_pos hpos]
  exact ⟨rfl, rfl, rfl, rfl, rfl⟩

/-- Helper: the play stage either appends the play timer or (when the
deadline passed) only appends untagged immediate-play trace entries. -/
theorem addPlayTimer_cases (trackId : String) (p : JSVal) (T : ℚ)
    (st2 : TMState) :
    ((addPlayTimer trackId p T st2).timers = st2.timers ++
        [Timer.mk st2.nextTid (st2.now + max 0 (T * 1000 - st2.now))
          (TAction.playA trackId p)] ∧
      (addPlayTimer trackId p T st2).trace = st2.trace) ∨
    ((addPlayTimer trackId p T st2).timers = st2.timers ∧
      (addPlayTimer trackId p T st2).trace = st2.trace ++
        (playVideoEffects trackId p).map (TraceEntry.mk none)) := by
  simp only [addPlayTimer]
  split
  · exact Or.inl ⟨rfl, rfl⟩
  · exact Or.inr ⟨rfl, rfl⟩

/-- Helper: the play stage preserves well-formedness, provided the state
holds no play timer for the track (which clearTimeout guarantees). -/
theorem wf_addPlayTimer (trackId : String) (p : JSVal) (T : ℚ)
    (st2 : TMState) (h : WFtm st2)
    (hnone : ∀ tm ∈ st2.timers, isPlayFor tm.act trackId = false) :
    WFtm (addPlayTimer trackId p T st2) := by
  obtain ⟨hnd, hb, hpm, hmp, htr⟩ := h
  simp only [addPlayTimer]
  split
  · refine ⟨?_, ?_, ?_, ?_, ?_⟩
    · rw [List.map_append]
      rw [List.nodup_append]
      refine ⟨hnd, by simp, ?_⟩
      intro a ha hb'
      simp only [List.map_cons, List.map_nil, List.mem_singleton] at hb'
      obtain ⟨tm, htm, rfl⟩ := List.mem_map.mp ha
      exact absurd hb' (Nat.ne_of_lt (hb tm htm))
    · intro tm htm
      rcases List.mem_append.mp htm with h1 | h1
      · exact Nat.lt_succ_of_lt (hb tm h1)
      · rw [List.mem_singleton.mp h1]
        exact Nat.lt_succ_self _
    · intro tm htm id pq hact
      rcases List.mem_append.mp htm with h1 | h1
      · by_cases hid : id = trackId
        · exfalso
          have := hnone tm h1
          rw [hact, hid] at this
          simp [isPlayFor] at this
        · rw [mapGet_mapSet_ne st2.scheduledPlays trackId st2.nextTid id hid]
          exact hpm tm h1 id pq hact
      · rw [List.mem_singleton.mp h1] at hact ⊢
        injection hact with hact1 hact2
        rw [← hact1, mapGet_mapSet_self]
    · intro id τ hg
      by_cases hid : id = trackId
      · rw [hid, mapGet_mapSet_self] at hg
        injection hg with hg
        refine ⟨by rw [← hg]; exact Nat.lt_succ_self _, ?_⟩
        intro tm htm ht
        rcases List.mem_append.mp htm with h1 | h1
        · exact absurd (ht.symm ▸ hb tm h1) (by rw [← hg]; exact lt_irrefl _)
        · rw [List.mem_singleton.mp h1]
          rw [hid]
          exact ⟨p, rfl⟩
      · rw [mapGet_mapSet_ne st2.scheduledPlays trackId st2.nextTid id hid] at hg
        refine ⟨Nat.lt_succ_of_lt (hmp id τ hg).1, ?_⟩
        intro tm htm ht
        rcases List.mem_append.mp htm with h1 | h1
        · exact (hmp id τ hg).2 tm h1 ht
        · rw [List.mem_singleton.mp h1] at ht
          exact absurd (ht ▸ (hmp id τ hg).1) (lt_irrefl _)
    · intro e he τ hs
      exact Nat.lt_succ_of_lt (htr e he τ hs)
  · refine ⟨hnd, hb, hpm, hmp, ?_⟩
    intro e he τ hs
    rcases List.mem_append.mp he with h1 | h1
    · exact htr e h1 τ hs
    · obtain ⟨eff, -, rfl⟩ := List.mem_map.mp h1
      exact Option.noConfusion hs

/-- Helper: a well-formed state has at most one pending play timer per
track. -/
theorem wf_play_count (st : TMState) (h : WFtm st) (id : String) :
    (st.timers.filter (fun tm => isPlayFor tm.act id)).length ≤ 1 := by
  obtain ⟨hnd, -, hpm, -, -⟩ := h
  cases hf : st.timers.filter (fun tm => isPlayFor tm.act id) with
  | nil => simp
  | cons a l =>
    cases l with
    | nil => simp
    | cons b l2 =>
      exfalso
      have hae : a ∈ st.timers.filter (fun tm => isPlayFor tm.act id) := by
        rw [hf]; exact List.mem_cons_self _ _
      have hbe : b ∈ st.timers.filter (fun tm => isPlayFor tm.act id) := by
        rw [hf]; exact List.mem_cons_of_mem _ (List.mem_cons_self _ _)
      obtain ⟨pa, hacta⟩ := isPlayFor_true ((List.mem_filter.mp hae).2)
      obtain ⟨pb, hactb⟩ := isPlayFor_true ((List.mem_filter.mp hbe).2)
      have hga := hpm a ((List.mem_filter.mp hae).1) id pa hacta
      have hgb := hpm b ((List.mem_filter.mp hbe).1) id pb hactb
      have htid : a.tid = b.tid := by
        rw [hga] at hgb
        injection hgb with h1
      have hndf : ((st.timers.filter (fun tm => isPlayFor tm.act id)).map
          Timer.tid).Nodup :=
        ((List.filter_sublist _).map Timer.tid).nodup hnd
      rw [hf] at hndf
      simp only [List.map_cons, List.nodup_cons, List.mem_cons] at hndf
      exact hndf.1 (Or.inl htid)

/-- Helper: when the map names a play timeout, clearTimeout removes
exactly the timers carrying that id. -/
theorem clearScheduled_some (trackId : String) (st : TMState) (tid0 : ℕ)
    (hg : mapGet st.scheduledPlays trackId = some tid0) :
    (clearScheduled trackId st).timers =
      st.timers.filter (fun tm => !(tm.tid == tid0)) := by
  unfold clearScheduled
  rw [hg]

/-- Helper: the seek stage keeps every previous timer pending. -/
theorem addSeekTimer_mem_old (trackId : String) (p : JSVal) (T L : ℚ)
    (st1 : TMState) (tm : Timer) (h : tm ∈ st1.timers) :
    tm ∈ (addSeekTimer trackId p T L st1).timers := by
  rcases addSeekTimer_timers trackId p T L st1 with ⟨he, -⟩ | ⟨he, -⟩
  · rw [he]; exact h
  · rw [he]; exact List.mem_append.mpr (Or.inl h)

/-- Helper: the play stage keeps every previous timer pending. -/
theorem addPlayTimer_mem_old (trackId : String) (p : JSVal) (T : ℚ)
    (st2 : TMState) (tm : Timer) (h : tm ∈ st2.timers) :
    tm ∈ (addPlayTimer trackId p T st2).timers := by
  rcases addPlayTimer_cases trackId p T st2 with ⟨he, -⟩ | ⟨he, -⟩
  · rw [he]; exact List.mem_append.mpr (Or.inl h)
  · rw [he]; exact h

/-- Helper: a fresh transport manager is well formed. -/
theorem WFtm_initTM (now : ℚ) : WFtm (initTM now) := by
  refine ⟨?_, ?_, ?_, ?_, ?_⟩ <;> simp [initTM, mapGet]

/-- Helper: the capable player has a seekTo method. -/
theorem goodPlayer_seekTo : hasFun goodPlayer "seekTo" = true := rfl

/-- Helper: the capable player has a playVideo method. -/
theorem goodPlayer_playVideo : hasFun goodPlayer "playVideo" = true := rfl

/-- C2 counterexample: schedule a play of track video1 at 10s with 120ms
lookahead on a fresh manager at time 0, then immediately replace it with
a play at 20s.  Running the event loop still executes the FIRST call's
lookahead-seek callback (the trace contains the seek to 10 - 0.12s,
tagged with timer id 0, which the first call allocated for its seek):
the claim that the first call's seek and play callbacks never run is
false.  Only the play timeout is stored in the scheduledPlays map, so
only the play was cancelled. -/
theorem c2_first_seek_fires_counterexample :
    TraceEntry.mk (some 0) (TEffect.seekE "video1" (max 0 (10 - 120 / 1000))) ∈
      (runAllTimers (schedulePlay "video1" goodPlayer 20 120
        (schedulePlay "video1" goodPlayer 10 120 (initTM 0)))).trace := by
  have h1 : (max 0 (10 - 120 / 1000) : ℚ) = 247 / 25 := by norm_num
  rw [h1]
  norm_num [schedulePlay, clearScheduled, addSeekTimer, addPlayTimer, initTM,
    goodPlayer_ready, goodPlayer_seekTo, goodPlayer_playVideo, mapGet, mapSet,
    runAllTimers, runTimersFuel, runStep, fireTimer, minTimer, timerLe,
    actionEffects, seekSafeEffects, playVideoEffects, mapDelete, List.erase]

/-- C2 amended: calling schedulePlay for a track that already has a
pending schedule cancels the prior schedule's PLAY callback: the first
call's play timer is removed and its callback never executes, and at most
one play timer per track is pending (the scheduledPlays map names at most
one).  However the first call's lookahead-seek callback is NOT tracked in
the map and is not cancelled: when its deadline is still in the future it
stays pending and will still fire. -/
theorem c2_schedule_replacement_amended
    (st : TMState) (trackId : String) (p : JSVal) (T1 L1 T2 L2 : ℚ)
    (hwf : WFtm st) (hready : isPlayerReadyB p = true)
    (hpend : st.now < T1 * 1000) :
    ∃ τ1,
      mapGet (schedulePlay trackId p T1 L1 st).scheduledPlays trackId = some τ1 ∧
      (∃ d, Timer.mk τ1 d (TAction.playA trackId p) ∈
        (schedulePlay trackId p T1 L1 st).timers) ∧
      (∀ tm ∈ (schedulePlay trackId p T2 L2
          (schedulePlay trackId p T1 L1 st)).timers, tm.tid ≠ τ1) ∧
      (∀ e ∈ (runAllTimers (schedulePlay trackId p T2 L2
          (schedulePlay trackId p T1 L1 st))).trace, e.src ≠ some τ1) ∧
      WFtm (schedulePlay trackId p T2 L2 (schedulePlay trackId p T1 L1 st)) ∧
      (∀ id, ((schedulePlay trackId p T2 L2
          (schedulePlay trackId p T1 L1 st)).timers.filter
          (fun tm => isPlayFor tm.act id)).length ≤ 1) ∧
      (st.now < T1 * 1000 - L1 →
        Timer.mk st.nextTid (st.now + max 0 (T1 * 1000 - L1 - st.now))
          (TAction.seekA trackId p (max 0 (T1 - L1 / 1000))) ∈
          (schedulePlay trackId p T2 L2
            (schedulePlay trackId p T1 L1 st)).timers) := by
  have hnf : ¬ (isPlayerReadyB p = false) := by simp [hready]
  have hsp : ∀ (T L : ℚ) (s : TMState), schedulePlay trackId p T L s =
      addPlayTimer trackId p T (addSeekTimer trackId p T L
        (clearScheduled trackId s)) := by
    intro T L s
    simp only [schedulePlay, if_neg hnf]
  -- First call.
  obtain ⟨hAmap, hAnext, hAnow, hAtrace⟩ := clearScheduled_fields trackId st
  obtain ⟨hBmap, hBnow, hBtrace, hBge⟩ :=
    addSeekTimer_fields trackId p T1 L1 (clearScheduled trackId st)
  have hBnow' : (addSeekTimer trackId p T1 L1 (clearScheduled trackId st)).now =
      st.now := by rw [hBnow, hAnow]
  have hpendB : (addSeekTimer trackId p T1 L1 (clearScheduled trackId st)).now <
      T1 * 1000 := by rw [hBnow']; exact hpend
  obtain ⟨hPt, hPm, hPn, hPnow, hPtr⟩ :=
    addPlayTimer_pending trackId p T1
      (addSeekTimer trackId p T1 L1 (clearScheduled trackId st)) hpendB
  have hwfA := wf_clearScheduled trackId st hwf
  have hwfB := wf_addSeekTimer trackId p T1 L1 (clearScheduled trackId st) hwfA
  have hnoneB := addSeekTimer_noPlay trackId trackId p T1 L1
    (clearScheduled trackId st) (clearScheduled_noPlay trackId st hwf)
  have hwf1 : WFtm (schedulePlay trackId p T1 L1 st) := by
    rw [hsp]
    exact wf_addPlayTimer trackId p T1 _ hwfB hnoneB
  have hmap1 : mapGet (schedulePlay trackId p T1 L1 st).scheduledPlays trackId =
      some (addSeekTimer trackId p T1 L1 (clearScheduled trackId st)).nextTid := by
    rw [hsp, hPm]
    exact mapGet_mapSet_self _ _ _
  have hτ1ge : st.nextTid ≤
      (addSeekTimer trackId p T1 L1 (clearScheduled trackId st)).nextTid := by
    rw [← hAnext]; exact hBge
  have htimer1 : Timer.mk
      (addSeekTimer trackId p T1 L1 (clearScheduled trackId st)).nextTid
      ((addSeekTimer trackId p T1 L1 (clearScheduled trackId st)).now +
        max 0 (T1 * 1000 -
          (addSeekTimer trackId p T1 L1 (clearScheduled trackId st)).now))
      (TAction.playA trackId p) ∈ (schedulePlay trackId p T1 L1 st).timers := by
    rw [hsp, hPt]
    exact List.mem_append.mpr (Or.inr (List.mem_singleton.mpr rfl))
  have htrace1 : (schedulePlay trackId p T1 L1 st).trace = st.trace := by
    rw [hsp, hPtr, hBtrace, hAtrace]
  have hnext1 : (schedulePlay trackId p T1 L1 st).nextTid =
      (addSeekTimer trackId p T1 L1 (clearScheduled trackId st)).nextTid + 1 := by
    rw [hsp, hPn]
  -- Second call.
  obtain ⟨hA2map, hA2next, hA2now, hA2trace⟩ :=
    clearScheduled_fields trackId (schedulePlay trackId p T1 L1 st)
  have hA2timers : (clearScheduled trackId (schedulePlay trackId p T1 L1 st)).timers =
      (schedulePlay trackId p T1 L1 st).timers.filter (fun tm => !(tm.tid ==
        (addSeekTimer trackId p T1 L1 (clearScheduled trackId st)).nextTid)) :=
    clearScheduled_some trackId (schedulePlay trackId p T1 L1 st) _ hmap1
  obtain ⟨hB2map, hB2now, hB2trace, hB2ge⟩ :=
    addSeekTimer_fields trackId p T2 L2
      (clearScheduled trackId (schedulePlay trackId p T1 L1 st))
  have hwfA2 := wf_clearScheduled trackId (schedulePlay trackId p T1 L1 st) hwf1
  have hwfB2 := wf_addSeekTimer trackId p T2 L2
    (clearScheduled trackId (schedulePlay trackId p T1 L1 st)) hwfA2
  have hnoneB2 := addSeekTimer_noPlay trackId trackId p T2 L2
    (clearScheduled trackId (schedulePlay trackId p T1 L1 st))
    (clearScheduled_noPlay trackId (schedulePlay trackId p T1 L1 st) hwf1)
  have hwf2 : WFtm (schedulePlay trackId p T2 L2
      (schedulePlay trackId p T1 L1 st)) := by
    rw [hsp T2 L2 (schedulePlay trackId p T1 L1 st)]
    exact wf_addPlayTimer trackId p T2 _ hwfB2 hnoneB2
  have hA2nextval : (clearScheduled trackId
      (schedulePlay trackId p T1 L1 st)).nextTid =
      (addSeekTimer trackId p T1 L1 (clearScheduled trackId st)).nextTid + 1 := by
    rw [hA2next, hnext1]
  have hA2ne : ∀ tm ∈ (clearScheduled trackId
      (schedulePlay trackId p T1 L1 st)).timers,
      tm.tid ≠ (addSeekTimer trackId p T1 L1 (clearScheduled trackId st)).nextTid := by
    intro tm htm
    rw [hA2timers] at htm
    have h2 := (List.mem_filter.mp htm).2
    simpa using h2
  have hB2ne : ∀ tm ∈ (addSeekTimer trackId p T2 L2 (clearScheduled trackId
      (schedulePlay trackId p T1 L1 st))).timers,
      tm.tid ≠ (addSeekTimer trackId p T1 L1 (clearScheduled trackId st)).nextTid := by
    intro tm htm
    rcases addSeekTimer_timers trackId p T2 L2 (clearScheduled trackId
      (schedulePlay trackId p T1 L1 st)) with ⟨he, -⟩ | ⟨he, -⟩
    · rw [he] at htm
      exact hA2ne tm htm
    · rw [he] at htm
      rcases List.mem_append.mp htm with h1 | h1
      · exact hA2ne tm h1
      · rw [List.mem_singleton.mp h1]
        show (clearScheduled trackId (schedulePlay trackId p T1 L1 st)).nextTid ≠ _
        rw [hA2nextval]
        omega
  have hcancel : ∀ tm ∈ (schedulePlay trackId p T2 L2
      (schedulePlay trackId p T1 L1 st)).timers,
      tm.tid ≠ (addSeekTimer trackId p T1 L1 (clearScheduled trackId st)).nextTid := by
    intro tm htm
    rw [hsp T2 L2 (schedulePlay trackId p T1 L1 st)] at htm
    rcases addPlayTimer_cases trackId p T2 (addSeekTimer trackId p T2 L2
      (clearScheduled trackId (schedulePlay trackId p T1 L1 st))) with
      ⟨he, -⟩ | ⟨he, -⟩
    · rw [he] at htm
      rcases List.mem_append.mp htm with h1 | h1
      · exact hB2ne tm h1
      · rw [List.mem_singleton.mp h1]
        show (addSeekTimer trackId p T2 L2 (clearScheduled trackId
          (schedulePlay trackId p T1 L1 st))).nextTid ≠ _
        have hge := hB2ge
        rw [hA2nextval] at hge
        omega
    · rw [he] at htm
      exact hB2ne tm htm
  have htrace2 : ∀ e ∈ (schedulePlay trackId p T2 L2
      (schedulePlay trackId p T1 L1 st)).trace, e ∈ st.trace ∨ e.src = none := by
    intro e he
    rw [hsp T2 L2 (schedulePlay trackId p T1 L1 st)] at he
    rcases addPlayTimer_cases trackId p T2 (addSeekTimer trackId p T2 L2
      (clearScheduled trackId (schedulePlay trackId p T1 L1 st))) with
      ⟨-, htr⟩ | ⟨-, htr⟩
    · rw [htr, hB2trace, hA2trace, htrace1] at he
      exact Or.inl he
    · rw [htr] at he
      rcases List.mem_append.mp he with h1 | h1
      · rw [hB2trace, hA2trace, htrace1] at h1
        exact Or.inl h1
      · obtain ⟨eff, -, rfl⟩ := List.mem_map.mp h1
        exact Or.inr rfl
  have htrwf := hwf.2.2.2.2
  have hnofire : ∀ e ∈ (runAllTimers (schedulePlay trackId p T2 L2
      (schedulePlay trackId p T1 L1 st))).trace,
      e.src ≠ some (addSeekTimer trackId p T1 L1 (clearScheduled trackId st)).nextTid := by
    intro e he hsrc
    have he' : e ∈ (runTimersFuel (schedulePlay trackId p T2 L2
        (schedulePlay trackId p T1 L1 st)).timers.length
        (schedulePlay trackId p T2 L2 (schedulePlay trackId p T1 L1 st))).trace := he
    rcases runTimersFuel_trace _ _ e he' with h1 | ⟨tm, htm, hs⟩
    · rcases htrace2 e h1 with h2 | h2
      · have hlt := htrwf e h2 _ hsrc
        omega
      · rw [h2] at hsrc
        exact Option.noConfusion hsrc
    · rw [hs] at hsrc
      injection hsrc with h3
      exact hcancel tm htm h3
  have hseekpersist : st.now < T1 * 1000 - L1 →
      Timer.mk st.nextTid (st.now + max 0 (T1 * 1000 - L1 - st.now))
        (TAction.seekA trackId p (max 0 (T1 - L1 / 1000))) ∈
        (schedulePlay trackId p T2 L2
          (schedulePlay trackId p T1 L1 st)).timers := by
    intro hsk
    have hskA : (clearScheduled trackId st).now < T1 * 1000 - L1 := by
      rw [hAnow]
      exact hsk
    obtain ⟨hseekt, hseekn⟩ :=
      addSeekTimer_pending trackId p T1 L1 (clearScheduled trackId st) hskA
    have hmemB : Timer.mk st.nextTid (st.now + max 0 (T1 * 1000 - L1 - st.now))
        (TAction.seekA trackId p (max 0 (T1 - L1 / 1000))) ∈
        (addSeekTimer trackId p T1 L1 (clearScheduled trackId st)).timers := by
      rw [hseekt, hAnext, hAnow]
      exact List.mem_append.mpr (Or.inr (List.mem_singleton.mpr rfl))
    have hτval : (addSeekTimer trackId p T1 L1 (clearScheduled trackId st)).nextTid =
        st.nextTid + 1 := by
      rw [hseekn, hAnext]
    have hmem1 : Timer.mk st.nextTid (st.now + max 0 (T1 * 1000 - L1 - st.now))
        (TAction.seekA trackId p (max 0 (T1 - L1 / 1000))) ∈
        (schedulePlay trackId p T1 L1 st).timers := by
      rw [hsp T1 L1 st, hPt]
      exact List.mem_append.mpr (Or.inl hmemB)
    have hmemA2 : Timer.mk st.nextTid (st.now + max 0 (T1 * 1000 - L1 - st.now))
        (TAction.seekA trackId p (max 0 (T1 - L1 / 1000))) ∈
        (clearScheduled trackId (schedulePlay trackId p T1 L1 st)).timers := by
      rw [hA2timers]
      refine List.mem_filter.mpr ⟨hmem1, ?_⟩
      rw [hτval]
      simp only [Bool.not_eq_eq_eq_not, Bool.not_true, beq_eq_false_iff_ne, ne_eq]
      omega
    have hmemB2 := addSeekTimer_mem_old trackId p T2 L2
      (clearScheduled trackId (schedulePlay trackId p T1 L1 st)) _ hmemA2
    rw [hsp T2 L2 (schedulePlay trackId p T1 L1 st)]
    exact addPlayTimer_mem_old trackId p T2 (addSeekTimer trackId p T2 L2
      (clearScheduled trackId (schedulePlay trackId p T1 L1 st))) _ hmemB2
  exact ⟨(addSeekTimer trackId p T1 L1 (clearScheduled trackId st)).nextTid,
    hmap1, ⟨_, htimer1⟩, hcancel, hnofire, hwf2,
    fun id => wf_play_count _ hwf2 id, hseekpersist⟩

/-- C2 witness: on a fresh manager at time 0, scheduling video1 at 10s
then at 20s (120ms lookahead) leaves no timer carrying the first play
timeout id (1): the first play was cancelled. -/
theorem c2_schedule_replacement_witness :
    (schedulePlay "video1" goodPlayer 20 120
        (schedulePlay "video1" goodPlayer 10 120 (initTM 0))).timers.all
      (fun tm => tm.tid != 1) = true := by
  obtain ⟨τ1, hτmap, -, hcancel, -, -, -, -⟩ :=
    c2_schedule_replacement_amended (initTM 0) "video1" goodPlayer 10 120 20 120
      (WFtm_initTM 0) goodPlayer_ready (by norm_num [initTM])
  have hval : mapGet (schedulePlay "video1" goodPlayer 10 120
      (initTM 0)).scheduledPlays "video1" = some 1 := by
    norm_num [schedulePlay, clearScheduled, addSeekTimer, addPlayTimer, initTM,
      goodPlayer_ready, mapGet, mapSet]
  rw [hval] at hτmap
  injection hτmap with hτ
  rw [← hτ] at hcancel
  rw [List.all_eq_true]
  intro tm hmem
  exact bne_iff_ne.mpr (hcancel tm hmem)

/-! ### Preload pipeline lemmas -/

/-- Helper: the buffering poll loop cannot raise the network-stall error
while the no-progress counter plus the remaining polls stay within the
threshold. -/
theorem wfbGo_no_stall (env : YTEnv) :
    ∀ (r i : ℕ) (lastFrac : ℚ) (noProg : ℕ), noProg + r ≤ 10 →
      ∃ t, wfbGo env r i lastFrac noProg = .ok t := by
  intro r
  induction r with
  | zero => exact fun i lf np h => ⟨50 * i, rfl⟩
  | succ r ih =>
    intro i lf np h
    simp only [wfbGo]
    by_cases h3 : env.stateAt (50 * i) = 3
    · rw [if_pos h3]
      exact ⟨_, rfl⟩
    · rw [if_neg h3]
      by_cases h4 : |env.fracAt (50 * i) - lf| < 1/1000
      · rw [if_pos h4]
        have h5 : ¬ (np + 1 > 10) := by omega
        rw [if_neg h5]
        exact ih (i + 1) lf (np + 1) (by omega)
      · rw [if_neg h4]
        exact ih (i + 1) (env.fracAt (50 * i)) 0 (by omega)

/-- C6: the network-stall branch is unreachable with the shipped
configuration, contradicting both the claim and the source's own
comment.  The wait budget PREROLL_DURATION_MS = 350ms admits at most 7
polls at 50ms, but the stall error requires 11 consecutive no-progress
polls, so waitForBuffering ALWAYS returns successfully; on the flatline
player (no progress at all, never buffering) the poll phase exits the
full budget with no error, and the attempt then fails at verification
with the insufficient-content error instead of the claimed fail-fast
network-stall error. -/
theorem c6_network_stall_unreachable :
    (∀ env : YTEnv, ∃ t, waitForBuffering env PREROLL_DURATION_MS = .ok t) ∧
    waitForBuffering flatlineEnv PREROLL_DURATION_MS = .ok 350 ∧
    preloadPlayer flatlineEnv none = .error (PreloadErr.insufficient 0) := by
  refine ⟨?_, ?_, ?_⟩
  · intro env
    show ∃ t, wfbGo env 7 0 0 0 = .ok t
    exact wfbGo_no_stall env 7 0 0 0 (by omega)
  · norm_num [waitForBuffering, wfbGo, flatlineEnv, PREROLL_DURATION_MS]
  · norm_num [preloadPlayer, prerollPrefix, waitForBuffering, wfbGo,
      verifyPlayerReady, flatlineEnv, PREROLL_DURATION_MS,
      PREROLL_BACK_SECONDS, READY_THRESHOLD_FRACTION, goodPlayer_ready]

/-- Helper: the armAll fold never changes the total. -/
theorem armAllFold_total (cues : String → Option ℚ)
    (l : List (String × YTEnv)) (acc : PreloadSummary) :
    (l.foldl (armAllStep cues) acc).total = acc.total := by
  induction l generalizing acc with
  | nil => rfl
  | cons pr l ih =>
    rw [List.foldl_cons, ih]
    simp only [armAllStep]
    split <;> rfl

/-- Helper: the armAll fold adds one to readyCount per successful
attempt. -/
theorem armAllFold_ready (cues : String → Option ℚ)
    (l : List (String × YTEnv)) (acc : PreloadSummary) :
    (l.foldl (armAllStep cues) acc).readyCount = acc.readyCount +
      (l.filter (fun pr => exceptOk (preloadPlayer pr.2 (cues pr.1)))).length := by
  induction l generalizing acc with
  | nil => simp
  | cons pr l ih =>
    rw [List.foldl_cons]
    cases h : preloadPlayer pr.2 (cues pr.1) with
    | ok v =>
      have hstep : armAllStep cues acc pr =
          { acc with readyCount := acc.readyCount + 1 } := by
        simp only [armAllStep, h]
      have hpred : exceptOk (preloadPlayer pr.2 (cues pr.1)) = true := by
        rw [h]
        rfl
      rw [hstep, ih]
      simp only [List.filter_cons, hpred, if_pos]
      simp only [List.length_cons]
      omega
    | error e =>
      have hpred : exceptOk (preloadPlayer pr.2 (cues pr.1)) = false := by
        rw [h]
        rfl
      have hstep : (armAllStep cues acc pr).readyCount = acc.readyCount := by
        simp only [armAllStep, h]
      rw [ih, hstep]
      simp [List.filter_cons, hpred]

/-- Helper: the armAll fold does not touch error keys of tracks outside
the batch. -/
theorem armAllFold_errors_not_mem (cues : String → Option ℚ)
    (l : List (String × YTEnv)) (acc : PreloadSummary) (k : String)
    (hk : k ∉ l.map Prod.fst) :
    mapGet (l.foldl (armAllStep cues) acc).errors k = mapGet acc.errors k := by
  induction l generalizing acc with
  | nil => rfl
  | cons pr l ih =>
    simp only [List.map_cons, List.mem_cons, not_or] at hk
    rw [List.foldl_cons, ih _ hk.2]
    cases h : preloadPlayer pr.2 (cues pr.1) with
    | ok v => simp only [armAllStep, h]
    | error e =>
      simp only [armAllStep, h]
      exact mapGet_mapSet_ne acc.errors pr.1 _ k hk.1

/-- Helper: each batch member's error entry is exactly its own attempt's
outcome (keys unique, key unused in the accumulator). -/
theorem armAllFold_errors_mem (cues : String → Option ℚ)
    (l : List (String × YTEnv)) (acc : PreloadSummary) (pr : String × YTEnv)
    (hmem : pr ∈ l) (hnd : (l.map Prod.fst).Nodup)
    (hacc : mapGet acc.errors pr.1 = none) :
    mapGet (l.foldl (armAllStep cues) acc).errors pr.1 =
      match preloadPlayer pr.2 (cues pr.1) with
      | .ok _ => none
      | .error e => some (renderPreloadError pr.1 e) := by
  induction l generalizing acc with
  | nil => cases hmem
  | cons q l ih =>
    simp only [List.map_cons, List.nodup_cons] at hnd
    rw [List.foldl_cons]
    rcases List.mem_cons.mp hmem with heq | hmem'
    · rw [← heq] at hnd ⊢
      rw [armAllFold_errors_not_mem cues l _ pr.1 hnd.1]
      cases h : preloadPlayer pr.2 (cues pr.1) with
      | ok v =>
        have hstep : (armAllStep cues acc pr).errors = acc.errors := by
          simp only [armAllStep, h]
        rw [hstep, hacc]
      | error e =>
        have hstep : (armAllStep cues acc pr).errors =
            mapSet acc.errors pr.1 (renderPreloadError pr.1 e) := by
          simp only [armAllStep, h]
        rw [hstep]
        exact mapGet_mapSet_self acc.errors pr.1 _
    · have hne : pr.1 ≠ q.1 :=
        fun hh => hnd.1 (hh ▸ List.mem_map_of_mem Prod.fst hmem')
      have hacc' : mapGet (armAllStep cues acc q).errors pr.1 = none := by
        cases h : preloadPlayer q.2 (cues q.1) with
        | ok v => simp only [armAllStep, h]; exact hacc
        | error e =>
          simp only [armAllStep, h]
          rw [mapGet_mapSet_ne acc.errors q.1 _ pr.1 hne]
          exact hacc
      exact ih _ hmem' hnd.2 hacc'

/-- C3: armAll is fail-soft.  Every track's attempt runs and is counted:
total is the batch size, readyCount is exactly the number of tracks whose
own attempt succeeds, and each track's error entry is exactly its own
attempt's failure message (none on success) — one track's broken handle
can neither abort nor alter any other track's outcome, because each
outcome is a function of that track's own id, environment and cue alone. -/
theorem c3_armAll_fail_soft (entries : List (String × YTEnv))
    (cues : String → Option ℚ) (hnd : (entries.map Prod.fst).Nodup) :
    (armAll entries cues).total = entries.length ∧
    (armAll entries cues).readyCount =
      (entries.filter (fun pr => exceptOk (preloadPlayer pr.2 (cues pr.1)))).length ∧
    ∀ pr ∈ entries, mapGet (armAll entries cues).errors pr.1 =
      match preloadPlayer pr.2 (cues pr.1) with
      | .ok _ => none
      | .error e => some (renderPreloadError pr.1 e) := by
  unfold armAll
  by_cases he : entries.length = 0
  · have hnil : entries = [] := List.length_eq_zero.mp he
    subst hnil
    simp
  · rw [if_neg he]
    refine ⟨?_, ?_, ?_⟩
    · rw [armAllFold_total]
    · rw [armAllFold_ready]
      simp
    · intro pr hpr
      exact armAllFold_errors_mem cues entries _ pr hpr hnd rfl

/-- C3 witness: three tracks where the middle track's handle is null;
the two healthy tracks still succeed (readyCount 2), and the broken
track's failure is recorded under its own id only. -/
theorem c3_armAll_fail_soft_witness :
    (armAll [("A", goodEnv), ("B", badEnv), ("C", goodEnv)]
      (fun _ => none)).readyCount = 2 ∧
    mapGet (armAll [("A", goodEnv), ("B", badEnv), ("C", goodEnv)]
      (fun _ => none)).errors "B" = some "Player not ready" ∧
    mapGet (armAll [("A", goodEnv), ("B", badEnv), ("C", goodEnv)]
      (fun _ => none)).errors "A" = none := by
  have hgood : preloadPlayer goodEnv none = .ok
      (PState.mk true 0 1 0 false) := by
    norm_num [preloadPlayer, prerollPrefix, waitForBuffering, wfbGo,
      verifyPlayerReady, goodEnv, goodPlayer_ready, PREROLL_DURATION_MS,
      PREROLL_BACK_SECONDS, READY_THRESHOLD_FRACTION]
  have hbad : preloadPlayer badEnv none = .error PreloadErr.notReadyErr := by
    norm_num [preloadPlayer, badEnv, isPlayerReadyB, isPlayerReady,
      JSVal.isFalsy]
  have h := c3_armAll_fail_soft [("A", goodEnv), ("B", badEnv), ("C", goodEnv)]
    (fun _ => none) (by simp)
  refine ⟨?_, ?_, ?_⟩
  · rw [h.2.1]
    simp [List.filter_cons, hgood, hbad, exceptOk]
  · have hb := h.2.2 ("B", badEnv) (by simp)
    rw [hbad] at hb
    exact hb
  · have ha := h.2.2 ("A", goodEnv) (by simp)
    rw [hgood] at ha
    exact ha

/-- C10: a successful autoPreloadPlayer run (result true) leaves the
player paused, unmuted, at volume 100 — the mute and zero volume of the
silent preroll are undone before the readiness check — whereas a
successful PreloadManager.preloadPlayer run leaves the player paused,
muted, at volume 0. -/
theorem c10_auto_preload_unmutes (env : YTEnv) (cue : Option ℚ) :
    (∀ s reg, autoPreloadPlayer env cue = (true, s, reg) →
      s.muted = false ∧ s.volume = 100 ∧ s.playing = false) ∧
    (∀ s, preloadPlayer env cue = .ok s →
      s.muted = true ∧ s.volume = 0 ∧ s.playing = false) := by
  constructor
  · intro s reg h
    simp only [autoPreloadPlayer] at h
    split at h
    · simp at h
    · split at h
      · split at h
        · simp at h
        · simp at h
      · split at h
        · simp at h
        · simp only [Prod.mk.injEq] at h
          obtain ⟨-, h2, -⟩ := h
          rw [← h2]
          exact ⟨rfl, rfl, rfl⟩
  · intro s h
    simp only [preloadPlayer] at h
    split at h
    · exact Except.noConfusion h
    · split at h
      · split at h
        · exact Except.noConfusion h
        · exact Except.noConfusion h
      · split at h
        · exact Except.noConfusion h
        · split at h
          · exact Except.noConfusion h
          · injection h with h2
            rw [← h2]
            refine ⟨?_, ?_, rfl⟩
            · show (prerollPrefix env cue).muted = true
              simp only [prerollPrefix]
              split
              · rfl
              · next hm =>
                simp only [Bool.not_eq_false] at hm
                exact hm
            · show (prerollPrefix env cue).volume = 0
              simp only [prerollPrefix]
              split <;> rfl

/-- C10 witness: the healthy player environment; the auto-preload returns
true and the final state is unmuted at volume 100, paused. -/
theorem c10_auto_preload_unmutes_witness :
    ∃ s reg, autoPreloadPlayer goodEnv none = (true, s, reg) ∧
      s.muted = false ∧ s.volume = 100 ∧ s.playing = false := by
  have hcomp : autoPreloadPlayer goodEnv none =
      (true, PState.mk false 100 1 0 false, false) := by
    norm_num [autoPreloadPlayer, prerollPrefix, findNonBufferTime, goodEnv,
      goodPlayer_ready, PREROLL_BACK_SECONDS, READY_THRESHOLD_FRACTION,
      List.range', List.find?]
    norm_num [show ((1 : ℤ) == 3) = false from rfl]
  exact ⟨_, _, hcomp, (c10_auto_preload_unmutes goodEnv none).1 _ _ hcomp⟩

/-! ### Policy guard lemmas -/

/-- Accounting quantity for listener firings: each attach adds four
once-listeners; dispatching an event converts listeners into handler
runs one for one. -/
def guardPotential (s : GuardState) : ℤ :=
  4 * s.attaches - s.handlerRuns - s.listeners.length

/-- Helper: setting up the listener does not change the accounting. -/
theorem setup_potential (s : GuardState) :
    guardPotential (setupRetryListener s) = guardPotential s := by
  unfold setupRetryListener guardPotential
  split
  · rfl
  · simp only [List.length_append, List.length_cons, List.length_nil]
    push_cast
    ring

/-- Helper: setting up the listener does not change the pending map. -/
theorem setup_pending (s : GuardState) :
    (setupRetryListener s).pending = s.pending := by
  unfold setupRetryListener
  split <;> rfl

/-- Helper: registering does not change the accounting. -/
theorem register_potential (id : String) (s : GuardState) :
    guardPotential (registerPendingTrack id s) = guardPotential s := by
  simp only [registerPendingTrack]
  split
  · rfl
  · rw [setup_potential]
    rfl

/-- Helper: one retried track does not change the accounting. -/
theorem processOutcome_potential (oracle : ℕ → String → RetryOutcome)
    (t : String) (s : GuardState) :
    guardPotential (processOutcome oracle t s) = guardPotential s := by
  simp only [processOutcome]
  split
  · rfl
  · rw [register_potential]
    rfl
  · rw [register_potential]
    rfl
  · rfl
  · rfl

/-- Helper: the handler tail does not change the accounting. -/
theorem runHandlerRest_potential (oracle : ℕ → String → RetryOutcome)
    (ts : List String) : ∀ s : GuardState,
    guardPotential (runHandlerRest oracle ts s) = guardPotential s := by
  induction ts with
  | nil => intro s; rfl
  | cons t ts ih =>
    intro s
    show guardPotential (runHandlerRest oracle ts (processOutcome oracle t s)) = _
    rw [ih, processOutcome_potential]

/-- Helper: one handler execution costs exactly one unit. -/
theorem runHandler_potential (oracle : ℕ → String → RetryOutcome)
    (s : GuardState) :
    guardPotential (runHandler oracle s) = guardPotential s - 1 := by
  simp only [runHandler]
  split
  · unfold guardPotential
    push_cast
    ring
  · next t1 rest heq =>
    rw [runHandlerRest_potential]
    split
    · next hb =>
      have h1 : guardPotential { registerPendingTrack t1
          { pending := s.pending, active := s.active, listeners := s.listeners,
            retriedLog := s.retriedLog ++ [t1],
            handlerRuns := s.handlerRuns + 1, attaches := s.attaches } with
          active := false } =
          guardPotential (registerPendingTrack t1
          { pending := s.pending, active := s.active, listeners := s.listeners,
            retriedLog := s.retriedLog ++ [t1],
            handlerRuns := s.handlerRuns + 1, attaches := s.attaches }) := rfl
      rw [h1, register_potential]
      unfold guardPotential
      push_cast
      ring
    · unfold guardPotential
      push_cast
      ring
    · rw [register_potential]
      unfold guardPotential
      push_cast
      ring
    · unfold guardPotential
      push_cast
      ring
    · unfold guardPotential
      push_cast
      ring

/-- Helper: n handler executions cost n units. -/
theorem fireLoop_potential (oracle : ℕ → String → RetryOutcome) (n : ℕ) :
    ∀ s : GuardState,
    guardPotential (fireLoop oracle n s) = guardPotential s - n := by
  induction n with
  | zero => intro s; simp [fireLoop]
  | succ n ih =>
    intro s
    show guardPotential (fireLoop oracle n (runHandler oracle s)) = _
    rw [ih, runHandler_potential]
    push_cast
    ring

/-- Helper: removing the dispatched class's listeners accounts exactly
for the handler runs the dispatch triggers. -/
theorem count_filter_length (l : List EvClass) (e : EvClass) :
    (l.filter (fun c => !(c == e))).length + l.count e = l.length := by
  induction l with
  | nil => rfl
  | cons c l ih =>
    by_cases h : c = e
    · subst h
      simp [List.filter_cons, List.count_cons]
      omega
    · have hb : (c == e) = false := beq_eq_false_iff_ne.mpr h
      simp [List.filter_cons, List.count_cons, hb]
      omega

/-- Helper: dispatching an event does not change the accounting. -/
theorem fireEvent_potential (oracle : ℕ → String → RetryOutcome) (e : EvClass)
    (s : GuardState) :
    guardPotential (fireEvent oracle e s) = guardPotential s := by
  unfold fireEvent
  rw [fireLoop_potential]
  have hgp : ∀ (p : List (String × ℕ)) (a : Bool) (l : List EvClass)
      (r : List String) (h att : ℕ),
      guardPotential (GuardState.mk p a l r h att) =
        4 * att - h - l.length := fun _ _ _ _ _ _ => rfl
  rw [hgp]
  unfold guardPotential
  have h := count_filter_length s.listeners e
  omega

/-- Helper: the accounting is invariant under every guard event. -/
theorem guardRun_potential (oracle : ℕ → String → RetryOutcome)
    (ops : List GuardOp) : ∀ s : GuardState,
    guardPotential (guardRun oracle ops s) = guardPotential s := by
  induction ops with
  | nil => intro s; rfl
  | cons op ops ih =>
    intro s
    show guardPotential (guardRun oracle ops (guardStep oracle op s)) = _
    rw [ih]
    cases op with
    | register id => exact register_potential id s
    | fire e => exact fireEvent_potential oracle e s
    | clear => rfl

/-- C7 counterexample: one track registered whose retry resolves false
without re-registering.  A mousedown then a click each fire the handler:
two handler executions and two automatic retries of the track, though the
listener set was attached exactly once and never re-attached.  The claim
that the listener fires at most once (and that firing removes it until a
new registration re-attaches it) is false: only the dispatched class's
once-listener is consumed, the other three classes stay attached. -/
theorem c7_fires_again_counterexample :
    (guardRun alwaysNotReady
      [GuardOp.register "t", GuardOp.fire EvClass.mousedown,
        GuardOp.fire EvClass.click] initGuard).retriedLog = ["t", "t"] ∧
    (guardRun alwaysNotReady
      [GuardOp.register "t", GuardOp.fire EvClass.mousedown,
        GuardOp.fire EvClass.click] initGuard).handlerRuns = 2 ∧
    (guardRun alwaysNotReady
      [GuardOp.register "t", GuardOp.fire EvClass.mousedown,
        GuardOp.fire EvClass.click] initGuard).attaches = 1 := by
  decide

/-- C7 amended: the listener set is attached at most once per pending
episode: while the retryListener flag is set, further registrations
attach nothing.  But the handler does not fire at most once per
attachment: it fires at most once per interaction CLASS per attachment
(at most four times), because each dispatch consumes exactly the
dispatched class's once-listeners: over any event sequence, handler
executions plus still-attached listeners equal four per attachment. -/
theorem c7_one_shot_listener_amended (oracle : ℕ → String → RetryOutcome)
    (ops : List GuardOp) :
    (∀ (s : GuardState) (id : String), s.active = true →
      (registerPendingTrack id s).listeners = s.listeners ∧
      (registerPendingTrack id s).attaches = s.attaches) ∧
    ((guardRun oracle ops initGuard).handlerRuns +
      (guardRun oracle ops initGuard).listeners.length =
      4 * (guardRun oracle ops initGuard).attaches) := by
  constructor
  · intro s id hact
    simp only [registerPendingTrack]
    split
    · exact ⟨rfl, rfl⟩
    · simp only [setupRetryListener]
      rw [if_pos hact]
      exact ⟨rfl, rfl⟩
  · have h := guardRun_potential oracle ops initGuard
    have h0 : guardPotential initGuard = 0 := rfl
    rw [h0] at h
    unfold guardPotential at h
    omega

/-- C7 witness: after one registration the flag is set; registering a
second track attaches no further listeners. -/
theorem c7_one_shot_listener_witness :
    (registerPendingTrack "u"
      (guardRun alwaysNotReady [GuardOp.register "t"] initGuard)).listeners =
    (guardRun alwaysNotReady [GuardOp.register "t"] initGuard).listeners :=
  ((c7_one_shot_listener_amended alwaysNotReady []).1
    (guardRun alwaysNotReady [GuardOp.register "t"] initGuard) "u"
    (by decide)).1

/-- Helper: an element of an updated map was already present or is the
updated binding. -/
theorem mem_mapSet {α : Type} (l : List (String × α)) (k : String) (v : α) :
    ∀ pr ∈ mapSet l k v, pr ∈ l ∨ pr = (k, v) := by
  induction l with
  | nil =>
    intro pr hpr
    simp only [mapSet, List.mem_singleton] at hpr
    exact Or.inr hpr
  | cons kv rest ih =>
    intro pr hpr
    obtain ⟨a, b⟩ := kv
    simp only [mapSet] at hpr
    by_cases h : (a == k) = true
    · rw [if_pos h] at hpr
      rcases List.mem_cons.mp hpr with h1 | h1
      · exact Or.inr h1
      · exact Or.inl (List.mem_cons_of_mem _ h1)
    · rw [if_neg h] at hpr
      rcases List.mem_cons.mp hpr with h1 | h1
      · exact Or.inl (h1 ▸ List.mem_cons_self _ _)
      · rcases ih pr h1 with h2 | h2
        · exact Or.inl (List.mem_cons_of_mem _ h2)
        · exact Or.inr h2

/-- The retry-count invariant: every stored pending entry is strictly
below maxRetries. -/
def PendInv (s : GuardState) : Prop := ∀ pr ∈ s.pending, pr.2 < maxRetries

/-- Helper: registering preserves the retry-count invariant (the bound is
checked before the entry is stored). -/
theorem pendInv_register (id : String) (s : GuardState) (h : PendInv s) :
    PendInv (registerPendingTrack id s) := by
  simp only [registerPendingTrack]
  split
  · intro pr hpr
    exact h pr (List.mem_filter.mp hpr).1
  · next hlt =>
    intro pr hpr
    rw [setup_pending] at hpr
    rcases mem_mapSet s.pending id _ pr hpr with h1 | h1
    · exact h pr h1
    · rw [h1]
      exact lt_of_not_le hlt

/-- Helper: one retried track preserves the retry-count invariant. -/
theorem pendInv_processOutcome (oracle : ℕ → String → RetryOutcome)
    (t : String) (s : GuardState) (h : PendInv s) :
    PendInv (processOutcome oracle t s) := by
  simp only [processOutcome]
  split
  · intro pr hpr
    exact h pr (List.mem_filter.mp hpr).1
  · exact pendInv_register t _ (fun pr hpr => h pr hpr)
  · exact pendInv_register t _ (fun pr hpr => h pr hpr)
  · exact fun pr hpr => h pr hpr
  · exact fun pr hpr => h pr hpr

/-- Helper: the handler tail preserves the retry-count invariant. -/
theorem pendInv_runHandlerRest (oracle : ℕ → String → RetryOutcome)
    (ts : List String) : ∀ s : GuardState, PendInv s →
    PendInv (runHandlerRest oracle ts s) := by
  induction ts with
  | nil => exact fun s h => h
  | cons t ts ih =>
    intro s h
    exact ih _ (pendInv_processOutcome oracle t s h)

/-- Helper: one handler execution preserves the retry-count invariant. -/
theorem pendInv_runHandler (oracle : ℕ → String → RetryOutcome)
    (s : GuardState) (h : PendInv s) : PendInv (runHandler oracle s) := by
  simp only [runHandler]
  split
  · exact fun pr hpr => h pr hpr
  · apply pendInv_runHandlerRest
    split
    · intro pr hpr
      refine pendInv_register _ _ ?_ pr hpr
      intro pr2 hpr2
      exact h pr2 hpr2
    · intro pr hpr
      exact h pr (List.mem_filter.mp hpr).1
    · intro pr hpr
      refine pendInv_register _ _ ?_ pr hpr
      intro pr2 hpr2
      exact h pr2 hpr2
    · exact fun pr hpr => h pr hpr
    · exact fun pr hpr => h pr hpr

/-- Helper: repeated handler executions preserve the invariant. -/
theorem pendInv_fireLoop (oracle : ℕ → String → RetryOutcome) (n : ℕ) :
    ∀ s : GuardState, PendInv s → PendInv (fireLoop oracle n s) := by
  induction n with
  | zero => exact fun s h => h
  | succ n ih =>
    intro s h
    exact ih _ (pendInv_runHandler oracle s h)

/-- Helper: every guard event preserves the invariant. -/
theorem pendInv_guardRun (oracle : ℕ → String → RetryOutcome)
    (ops : List GuardOp) : ∀ s : GuardState, PendInv s →
    PendInv (guardRun oracle ops s) := by
  induction ops with
  | nil => exact fun s h => h
  | cons op ops ih =>
    intro s h
    refine ih _ ?_
    cases op with
    | register id => exact pendInv_register id s h
    | fire e => exact pendInv_fireLoop oracle _ _ (fun pr hpr => h pr hpr)
    | clear => exact fun pr hpr => absurd hpr (List.not_mem_nil pr)

/-- Helper: setting up the listener does not change the retried log. -/
theorem setup_retriedLog (s : GuardState) :
    (setupRetryListener s).retriedLog = s.retriedLog := by
  unfold setupRetryListener
  split <;> rfl

/-- State shape of a single track whose every retry is autoplay-blocked:
either it is the sole pending entry, with its stored count equal to the
number of retries so far (at most 2), or it has been dropped after
exactly 3 retries. -/
def soleBlocked (id : String) (s : GuardState) : Prop :=
  (∃ rc, rc ≤ 2 ∧ s.pending = [(id, rc)] ∧ s.retriedLog.count id = rc) ∨
  (s.pending = [] ∧ s.retriedLog.count id = 3)

/-- Helper: one handler execution preserves the single-blocked-track
shape: a pending track is retried once and either re-registered with the
incremented count or dropped at the bound; an empty map retries
nothing. -/
theorem soleBlocked_runHandler (id : String) (s : GuardState)
    (h : soleBlocked id s) : soleBlocked id (runHandler alwaysBlocked s) := by
  rcases h with ⟨rc, hrc, hp, hcnt⟩ | ⟨hp, hcnt⟩
  · have hcount : (s.retriedLog ++ [id]).count id = rc + 1 := by
      rw [List.count_append, hcnt]
      simp
    simp only [runHandler, hp, List.map_cons, List.map_nil, alwaysBlocked,
      runHandlerRest, registerPendingTrack, mapGet, beq_self_eq_true, if_pos]
    by_cases hge : rc + 1 ≥ maxRetries
    · rw [if_pos hge]
      refine Or.inr ⟨?_, ?_⟩
      · show mapDelete [(id, rc)] id = []
        simp [mapDelete]
      · show (s.retriedLog ++ [id]).count id = 3
        rw [hcount]
        have : maxRetries = 3 := rfl
        omega
    · rw [if_neg hge]
      refine Or.inl ⟨rc + 1, ?_, ?_, ?_⟩
      · have : maxRetries = 3 := rfl
        omega
      · rw [setup_pending]
        show mapSet [(id, rc)] id (rc + 1) = [(id, rc + 1)]
        simp [mapSet]
      · rw [setup_retriedLog]
        exact hcount
  · simp only [runHandler, hp, List.map_nil]
    exact Or.inr ⟨rfl, hcnt⟩

/-- Helper: repeated handler executions preserve the shape. -/
theorem soleBlocked_fireLoop (id : String) (n : ℕ) : ∀ s : GuardState,
    soleBlocked id s → soleBlocked id (fireLoop alwaysBlocked n s) := by
  induction n with
  | zero => exact fun s h => h
  | succ n ih =>
    intro s h
    exact ih _ (soleBlocked_runHandler id s h)

/-- Helper: any sequence of user interactions preserves the shape. -/
theorem soleBlocked_fires (id : String) (fires : List EvClass) :
    ∀ s : GuardState, soleBlocked id s →
    soleBlocked id (guardRun alwaysBlocked (fires.map GuardOp.fire) s) := by
  induction fires with
  | nil => exact fun s h => h
  | cons e fires ih =>
    intro s h
    refine ih _ ?_
    rcases h with ⟨rc, hrc, hp, hcnt⟩ | ⟨hp, hcnt⟩
    · exact soleBlocked_fireLoop id _ _ (Or.inl ⟨rc, hrc, hp, hcnt⟩)
    · exact soleBlocked_fireLoop id _ _ (Or.inr ⟨hp, hcnt⟩)

/-- C4: the pending-track state always satisfies retryCount < maxRetries
(for any oracle and any event sequence); a track that fails
autoplay-gated preload on every gesture retry is automatically retried at
most maxRetries = 3 times, and in the concrete always-blocked run it is
retried exactly 3 times, after which it is dropped from the map and the
remaining gestures retry nothing. -/
theorem c4_retry_bound (oracle : ℕ → String → RetryOutcome)
    (ops : List GuardOp) (id : String) (fires : List EvClass) :
    (∀ pr ∈ (guardRun oracle ops initGuard).pending, pr.2 < maxRetries) ∧
    ((guardRun alwaysBlocked (GuardOp.register id :: fires.map GuardOp.fire)
        initGuard).retriedLog.count id ≤ maxRetries) ∧
    ((guardRun alwaysBlocked (GuardOp.register "t" ::
        [EvClass.mousedown, EvClass.keydown, EvClass.touchstart,
          EvClass.click].map GuardOp.fire)
        initGuard).retriedLog = ["t", "t", "t"] ∧
      mapGet (guardRun alwaysBlocked (GuardOp.register "t" ::
        [EvClass.mousedown, EvClass.keydown, EvClass.touchstart,
          EvClass.click].map GuardOp.fire)
        initGuard).pending "t" = none) := by
  refine ⟨?_, ?_, by decide⟩
  · exact pendInv_guardRun oracle ops initGuard
      (fun pr hpr => absurd hpr (List.not_mem_nil pr))
  · have hstep : guardRun alwaysBlocked
        (GuardOp.register id :: fires.map GuardOp.fire) initGuard =
        guardRun alwaysBlocked (fires.map GuardOp.fire)
          (registerPendingTrack id initGuard) := rfl
    rw [hstep]
    have hbase : soleBlocked id (registerPendingTrack id initGuard) := by
      refine Or.inl ⟨0, by omega, ?_, ?_⟩
      · rfl
      · rfl
    have hfin := soleBlocked_fires id fires _ hbase
    rcases hfin with ⟨rc, hrc, -, hcnt⟩ | ⟨-, hcnt⟩
    · rw [hcnt]
      have : maxRetries = 3 := rfl
      omega
    · rw [hcnt]
      decide

/-- C4 witness: after one registration, the stored entry has retry count
0, strictly below the bound. -/
theorem c4_retry_bound_witness :
    ("t", 0) ∈ (guardRun alwaysBlocked [GuardOp.register "t"]
      initGuard).pending ∧ (0 : ℕ) < maxRetries :=
  ⟨by decide,
    (c4_retry_bound alwaysBlocked [GuardOp.register "t"] "t" []).1 ("t", 0)
      (by decide)⟩

end ChopTube
